import Mathlib

/-!
Verification of the gold-truth quality-measure engine
(`gold_truth_engine/gold_truth_engine.py`).

The Python source is shallowly embedded below: CSV rows become structures
whose date fields stay strings (the source parses them on every use with
`datetime.strptime`, which raises `ValueError` on malformed input, so every
scan that parses dates is embedded in `Except String`); the guarded
`float(...)` conversions (always wrapped in `try/except` in the source) are
represented by an `Option ℚ` field; the mutable caches of `GoldTruthEngine`
become an explicit `CacheState` threaded through the data-store operations,
which also report how many source files they scanned.
-/

/-! ## Dates

`datetime.date` values, proleptic-Gregorian ordinals (`date.toordinal`),
and the lexicographic `(year, month, day)` comparison Python uses. -/

structure PyDate where
  year : Nat
  month : Nat
  day : Nat
deriving DecidableEq, Repr

def isLeapYear (y : Nat) : Bool :=
  y % 4 == 0 && (y % 100 != 0 || y % 400 == 0)

def daysInMonth (y m : Nat) : Nat :=
  if m = 2 then (if isLeapYear y then 29 else 28)
  else if m = 4 ∨ m = 6 ∨ m = 9 ∨ m = 11 then 30
  else 31

/-- Days in year `y` strictly before month `m` (months count from 1). -/
def daysBeforeMonth (y : Nat) : Nat → Nat
  | 0 => 0
  | 1 => 0
  | m + 2 => daysBeforeMonth y (m + 1) + daysInMonth y (m + 1)

/-- Model of `date.toordinal`: day number of a valid Gregorian date, day 1 being
0001-01-01. -/
def toOrdinal (d : PyDate) : Nat :=
  365 * (d.year - 1) + (d.year - 1) / 4 - (d.year - 1) / 100 + (d.year - 1) / 400
    + daysBeforeMonth d.year d.month + d.day

/-- Model of `(a - b).days` for two `datetime.date` values. -/
def daysDiff (a b : PyDate) : Int :=
  (toOrdinal a : Int) - (toOrdinal b : Int)

/-- Python's `date.__le__`: lexicographic on `(year, month, day)`. -/
def pyDateLe (a b : PyDate) : Bool :=
  decide (a.year < b.year ∨ (a.year = b.year ∧
    (a.month < b.month ∨ (a.month = b.month ∧ a.day ≤ b.day))))

/-- Python's `<` on `(month, day)` pairs (tuple comparison, lexicographic). -/
def pyPairLt (a b : Nat × Nat) : Bool :=
  decide (a.1 < b.1 ∨ (a.1 = b.1 ∧ a.2 < b.2))

/-! ## `parse_date`

`datetime.strptime(d_str, "%Y-%m-%d").date()`: `%Y` matches 1-4 digits,
`%m` and `%d` 1-2 digits, the whole string must be consumed, and the
`date` constructor validates month and day ranges.  Failure (`ValueError`
in the source) is `none`. -/

def splitDash : List Char → List (List Char)
  | [] => [[]]
  | '-' :: rest => [] :: splitDash rest
  | c :: rest =>
    match splitDash rest with
    | [] => [[c]]
    | g :: gs => (c :: g) :: gs

def digitVal (c : Char) : Option Nat :=
  if '0' ≤ c ∧ c ≤ '9' then some (c.toNat - '0'.toNat) else none

def digitsVal : List Char → Option Nat
  | [] => none
  | [c] => digitVal c
  | c :: rest =>
    match digitVal c, digitsVal rest with
    | some v, some w => some (v * 10 ^ rest.length + w)
    | _, _ => none

def parse_date (s : String) : Option PyDate :=
  match splitDash s.toList with
  | [ys, ms, ds] =>
    match digitsVal ys, digitsVal ms, digitsVal ds with
    | some y, some m, some d =>
      if ys.length ≤ 4 ∧ ms.length ≤ 2 ∧ ds.length ≤ 2
          ∧ 1 ≤ y ∧ 1 ≤ m ∧ m ≤ 12 ∧ 1 ≤ d ∧ d ≤ daysInMonth y m then
        some ⟨y, m, d⟩
      else none
    | _, _, _ => none
  | _ => none

/-- Model of `calculate_age(dob, index_date)` from the source:
`index.year - dob.year - ((index.month, index.day) < (dob.month, dob.day))`. -/
def calculate_age (dob index_date : PyDate) : Int :=
  (index_date.year : Int) - (dob.year : Int)
    - (if pyPairLt (index_date.month, index_date.day) (dob.month, dob.day) then 1 else 0)

/-! ## Rows and results -/

structure PatientRow where
  patient_id : String
  dob : String
  sex : String
deriving DecidableEq, Repr

structure EncounterRow where
  patient_id : String
  encounter_date : String
deriving DecidableEq, Repr

/-- An `events.csv` row.  `value_num` models the CSV string field: `none`
stands for an empty or non-numeric string (every `float(ev['value_num'])`
in the source is guarded by a truthiness test and `try/except`), `some v`
for a string parsing to the numeric value `v`. -/
structure EventRow where
  patient_id : String
  event_date : String
  code : String
  value_num : Option ℚ
deriving DecidableEq, Repr

/-- The per-measure result dictionary.  `evaluate_cms122` builds a dict
without the `exclusion`/`exclusion_reason` keys; absent keys are modelled
by the defaults `false`/`none`. -/
structure MeasureResult where
  initial_population : Bool := false
  denominator : Bool := false
  numerator : Bool := false
  exclusion : Bool := false
  exclusion_reason : Option String := none
  evidence : Option EventRow := none
  debug_reason : Option String := none
deriving DecidableEq, Repr

/-! ## Value sets (`self.code_maps`, loaded from the terminology asset) -/

structure Cms125Codes where
  bilateralMastectomy : List String
  absenceLeft : List String
  unilateralLeft : List String
  absenceRight : List String
  unilateralRight : List String
  mammography : List String
deriving DecidableEq, Repr

structure Cms130Codes where
  colorectalCancerExcl : List String
  totalColectomyExcl : List String
  colonoscopy : List String
  fit : List String
deriving DecidableEq, Repr

structure Cms165Codes where
  essentialHypertension : List String
  esrdExcl : List String
  pregnancyExcl : List String
  hospiceExcl : List String
  palliativeExcl : List String
  frailtyExcl : List String
  advancedIllnessExcl : List String
  dementiaMedsExcl : List String
  ltcExcl : List String
  systolic : List String
  diastolic : List String
deriving DecidableEq, Repr

structure Cms122Codes where
  diabetes : List String
  hba1cTest : List String
deriving DecidableEq, Repr

structure AllCodes where
  c125 : Cms125Codes
  c130 : Cms130Codes
  c165 : Cms165Codes
  c122 : Cms122Codes
deriving DecidableEq, Repr

/-! ## Sorting

`list.sort(key=lambda x: parse_date(...), reverse=True)`.  Any correct
sort yields the same behaviour up to the order of key-equal elements; the
theorems below only use membership and head-maximality, so the sort is
modelled by a structurally recursive insertion sort. -/

def insertLe {α : Type} (le : α → α → Bool) (x : α) : List α → List α
  | [] => [x]
  | y :: ys => if le x y then x :: y :: ys else y :: insertLe le x ys

def sortLe {α : Type} (le : α → α → Bool) : List α → List α
  | [] => []
  | x :: xs => insertLe le x (sortLe le xs)

/-- Sort key for event rows: the parsed event date (total on rows whose
date parses, which is the only case any sort in the source reaches). -/
def evKey (ev : EventRow) : PyDate :=
  (parse_date ev.event_date).getD ⟨0, 0, 0⟩

/-- Descending comparison of event rows by parsed date. -/
def evDescLe (a b : EventRow) : Bool :=
  pyDateLe (evKey b) (evKey a)

/-- Descending comparison of date strings by parsed date. -/
def strDescLe (a b : String) : Bool :=
  pyDateLe ((parse_date b).getD ⟨0, 0, 0⟩) ((parse_date a).getD ⟨0, 0, 0⟩)

/-! ## Shared scan helpers -/

/-- Model of `any(parse_date(e['encounter_date']).year == self.index_date.year
for e in encounters)`: short-circuits at the first hit, raises at the
first malformed date reached before one. -/
def anyEncounterInYear (y : Nat) : List EncounterRow → Except String Bool
  | [] => .ok false
  | e :: rest =>
    match parse_date e.encounter_date with
    | none => .error "ValueError"
    | some d => if d.year = y then .ok true else anyEncounterInYear y rest

/-- Python `min` over a nonempty list (first minimal element; the `[]`
case is never reached by the source). -/
def minQ : List ℚ → ℚ
  | [] => 0
  | x :: xs => xs.foldl min x

def pyBool (b : Bool) : String := if b then "True" else "False"

/-! ## CMS125 (Breast Cancer Screening) -/

/-- First event loop of `evaluate_cms125`: mastectomy flags
`(has_bilateral, has_left, has_right)`. -/
def cms125ExclFlags (idxYear : Nat) (cm : Cms125Codes) :
    List EventRow → Bool → Bool → Bool → Except String (Bool × Bool × Bool)
  | [], b, l, r => .ok (b, l, r)
  | ev :: rest, b, l, r =>
    match parse_date ev.event_date with
    | none => .error "ValueError"
    | some d =>
      if idxYear < d.year then cms125ExclFlags idxYear cm rest b l r
      else
        cms125ExclFlags idxYear cm rest
          (b || cm.bilateralMastectomy.contains ev.code)
          (l || cm.absenceLeft.contains ev.code || cm.unilateralLeft.contains ev.code)
          (r || cm.absenceRight.contains ev.code || cm.unilateralRight.contains ev.code)

/-- Second event loop of `evaluate_cms125`: mammography events with
`0 <= (index_date - event_date).days <= 821`, in event order. -/
def cms125ValidMammos (index_date : PyDate) (cm : Cms125Codes) :
    List EventRow → Except String (List EventRow)
  | [] => .ok []
  | ev :: rest =>
    if cm.mammography.contains ev.code then
      match parse_date ev.event_date with
      | none => .error "ValueError"
      | some d =>
        match cms125ValidMammos index_date cm rest with
        | .error e => .error e
        | .ok l =>
          if 0 ≤ daysDiff index_date d ∧ daysDiff index_date d ≤ 821 then .ok (ev :: l)
          else .ok l
    else cms125ValidMammos index_date cm rest

def evaluate_cms125 (index_date : PyDate) (cm : Cms125Codes)
    (patient : Option PatientRow) (encounters : List EncounterRow)
    (events : List EventRow) : Except String MeasureResult :=
  match patient with
  | none => .ok {}
  | some p =>
    if p.sex ≠ "F" then .ok {}
    else
      match parse_date p.dob with
      | none => .error "ValueError"
      | some dob =>
        let age := calculate_age dob index_date
        let ip : Bool := decide (52 ≤ age) && decide (age ≤ 74)
        match anyEncounterInYear index_date.year encounters with
        | .error e => .error e
        | .ok hasEnc =>
          if !ip || !hasEnc then .ok { initial_population := ip }
          else
            match cms125ExclFlags index_date.year cm events false false false with
            | .error e => .error e
            | .ok (b, l, r) =>
              if b || (l && r) then
                .ok { initial_population := ip, exclusion := true,
                      exclusion_reason := some "Bilateral mastectomy or equivalent" }
              else
                match cms125ValidMammos index_date cm events with
                | .error e => .error e
                | .ok mammos =>
                  match (sortLe evDescLe mammos).head? with
                  | none => .ok { initial_population := ip, denominator := true }
                  | some m =>
                    .ok { initial_population := ip, denominator := true,
                          numerator := true, evidence := some m }

/-! ## CMS130 (Colorectal Cancer Screening) -/

def cms130ExclScan (idxYear : Nat) (cm : Cms130Codes) :
    List EventRow → Bool → Option String → Except String (Bool × Option String)
  | [], excl, reason => .ok (excl, reason)
  | ev :: rest, excl, reason =>
    match parse_date ev.event_date with
    | none => .error "ValueError"
    | some d =>
      if idxYear < d.year then cms130ExclScan idxYear cm rest excl reason
      else if cm.colorectalCancerExcl.contains ev.code then
        cms130ExclScan idxYear cm rest true (some "Colorectal Cancer")
      else if cm.totalColectomyExcl.contains ev.code then
        cms130ExclScan idxYear cm rest true (some "Total Colectomy")
      else cms130ExclScan idxYear cm rest excl reason

/-- Screening loop of `evaluate_cms130`: colonoscopy within 3650 days,
FIT within 365 days; an event whose code is in both sets is appended by
both branches. -/
def cms130ValidScreenings (index_date : PyDate) (cm : Cms130Codes) :
    List EventRow → Except String (List EventRow)
  | [] => .ok []
  | ev :: rest =>
    match parse_date ev.event_date with
    | none => .error "ValueError"
    | some d =>
      match cms130ValidScreenings index_date cm rest with
      | .error e => .error e
      | .ok l =>
        if daysDiff index_date d < 0 then .ok l
        else
          .ok ((if cm.colonoscopy.contains ev.code ∧ daysDiff index_date d ≤ 3650
                then [ev] else [])
            ++ (if cm.fit.contains ev.code ∧ daysDiff index_date d ≤ 365
                then [ev] else [])
            ++ l)

def evaluate_cms130 (index_date : PyDate) (cm : Cms130Codes)
    (patient : Option PatientRow) (encounters : List EncounterRow)
    (events : List EventRow) : Except String MeasureResult :=
  match patient with
  | none => .ok {}
  | some p =>
    match parse_date p.dob with
    | none => .error "ValueError"
    | some dob =>
      let age := calculate_age dob index_date
      let ip : Bool := decide (45 ≤ age) && decide (age ≤ 75)
      match anyEncounterInYear index_date.year encounters with
      | .error e => .error e
      | .ok hasEnc =>
        if !ip || !hasEnc then .ok { initial_population := ip }
        else
          match cms130ExclScan index_date.year cm events false none with
          | .error e => .error e
          | .ok (excl, reason) =>
            if excl then
              .ok { initial_population := ip, exclusion := true,
                    exclusion_reason := reason }
            else
              match cms130ValidScreenings index_date cm events with
              | .error e => .error e
              | .ok screenings =>
                match (sortLe evDescLe screenings).head? with
                | none => .ok { initial_population := ip, denominator := true }
                | some m =>
                  .ok { initial_population := ip, denominator := true,
                        numerator := true, evidence := some m }

/-! ## CMS165 (Controlling High Blood Pressure) -/

structure Cms165Flags where
  htn : Bool := false
  esrd : Bool := false
  pregnancy : Bool := false
  hospicePall : Bool := false
  frailty : Bool := false
  advIllness : Bool := false
  ltc : Bool := false
deriving DecidableEq, Repr

/-- Condition/exclusion event loop of `evaluate_cms165`.  The
hypertension test (`edate <= June 30 of the measurement year`) precedes
the `edate.year > index.year` skip, exactly as in the source. -/
def cms165FlagScan (index_date : PyDate) (cm : Cms165Codes) :
    List EventRow → Cms165Flags → Except String Cms165Flags
  | [], fl => .ok fl
  | ev :: rest, fl =>
    match parse_date ev.event_date with
    | none => .error "ValueError"
    | some d =>
      let fl1 := { fl with
        htn := fl.htn || (cm.essentialHypertension.contains ev.code
          && pyDateLe d ⟨index_date.year, 6, 30⟩) }
      if index_date.year < d.year then cms165FlagScan index_date cm rest fl1
      else
        cms165FlagScan index_date cm rest { fl1 with
          esrd := fl1.esrd || cm.esrdExcl.contains ev.code
          pregnancy := fl1.pregnancy ||
            (cm.pregnancyExcl.contains ev.code && d.year == index_date.year)
          hospicePall := fl1.hospicePall ||
            (cm.hospiceExcl.contains ev.code && d.year == index_date.year) ||
            (cm.palliativeExcl.contains ev.code && d.year == index_date.year)
          frailty := fl1.frailty ||
            (cm.frailtyExcl.contains ev.code && d.year == index_date.year)
          advIllness := fl1.advIllness ||
            ((cm.advancedIllnessExcl.contains ev.code
                || cm.dementiaMedsExcl.contains ev.code)
              && (index_date.year - 1 ≤ d.year && d.year ≤ index_date.year))
          ltc := fl1.ltc || cm.ltcExcl.contains ev.code }

/-- One value of `readings_by_date`: systolic and diastolic readings of a
single date key.  The source keeps value and event in two parallel lists
appended in the same iteration; they are represented as lists of pairs. -/
structure BpReads where
  sys : List (ℚ × EventRow) := []
  dia : List (ℚ × EventRow) := []
deriving DecidableEq, Repr

def addSysRead (v : ℚ) (ev : EventRow) (r : BpReads) : BpReads :=
  { r with sys := r.sys ++ [(v, ev)] }

def addDiaRead (v : ℚ) (ev : EventRow) (r : BpReads) : BpReads :=
  { r with dia := r.dia ++ [(v, ev)] }

/-- Model of `readings_by_date.setdefault(k, empty)` followed by an append:
update the entry of `k` in place, or append a fresh entry at the end
(dict insertion order). -/
def bpUpdate (k : String) (f : BpReads → BpReads) :
    List (String × BpReads) → List (String × BpReads)
  | [] => [(k, f {})]
  | (k', r) :: rest =>
    if k' = k then (k', f r) :: rest else (k', r) :: bpUpdate k f rest

/-- Blood-pressure reading loop of `evaluate_cms165`, building
`readings_by_date` keyed by the raw `event_date` string. -/
def cms165Readings (idxYear : Nat) (cm : Cms165Codes) :
    List EventRow → List (String × BpReads) → Except String (List (String × BpReads))
  | [], acc => .ok acc
  | ev :: rest, acc =>
    match parse_date ev.event_date with
    | none => .error "ValueError"
    | some d =>
      if d.year = idxYear then
        match ev.value_num with
        | some v =>
          if cm.systolic.contains ev.code then
            cms165Readings idxYear cm rest (bpUpdate ev.event_date (addSysRead v ev) acc)
          else if cm.diastolic.contains ev.code then
            cms165Readings idxYear cm rest (bpUpdate ev.event_date (addDiaRead v ev) acc)
          else cms165Readings idxYear cm rest acc
        | none => cms165Readings idxYear cm rest acc
      else cms165Readings idxYear cm rest acc

def evaluate_cms165 (index_date : PyDate) (cm : Cms165Codes)
    (patient : Option PatientRow) (encounters : List EncounterRow)
    (events : List EventRow) : Except String MeasureResult :=
  match patient with
  | none => .ok {}
  | some p =>
    match parse_date p.dob with
    | none => .error "ValueError"
    | some dob =>
      let age := calculate_age dob index_date
      let agePass : Bool := decide (18 ≤ age) && decide (age ≤ 85)
      match anyEncounterInYear index_date.year encounters with
      | .error e => .error e
      | .ok hasEnc =>
        if !agePass || !hasEnc then
          .ok { initial_population := false,
                debug_reason := some ("Failed IP: age_pass=" ++ pyBool agePass
                  ++ ", has_encounter=" ++ pyBool hasEnc) }
        else
          match cms165FlagScan index_date cm events {} with
          | .error e => .error e
          | .ok fl =>
            if !fl.htn then
              .ok { initial_population := false,
                    debug_reason := some "Failed IP: No valid hypertension diagnosis found" }
            else
              let exclPair : Bool × Option String :=
                if fl.hospicePall then (true, some "Hospice or Palliative Care")
                else if fl.esrd then (true, some "ESRD Diagnosis")
                else if fl.pregnancy then (true, some "Pregnancy")
                else if decide (66 ≤ age) && fl.ltc then (true, some "Age >= 66 in LTC")
                else if decide (66 ≤ age) && decide (age ≤ 80) && fl.frailty && fl.advIllness then
                  (true, some "Age 66-80 with Frailty and Advanced Illness")
                else if decide (81 ≤ age) && fl.frailty then (true, some "Age >= 81 with Frailty")
                else (false, none)
              if exclPair.1 then
                .ok { initial_population := true, exclusion := true,
                      exclusion_reason := exclPair.2 }
              else
                match cms165Readings index_date.year cm events [] with
                | .error e => .error e
                | .ok acc =>
                  let validDays :=
                    (acc.filter (fun kr => !kr.2.sys.isEmpty && !kr.2.dia.isEmpty)).map (·.1)
                  match (sortLe strDescLe validDays).head? with
                  | none => .ok { initial_population := true, denominator := true }
                  | some mostRecent =>
                    let reads := (acc.lookup mostRecent).getD {}
                    let minSys := minQ (reads.sys.map (·.1))
                    let minDia := minQ (reads.dia.map (·.1))
                    .ok { initial_population := true, denominator := true,
                          numerator := decide (minSys < 140) && decide (minDia < 90),
                          evidence := (reads.sys.find? (fun pr => pr.1 == minSys)).map (·.2) }

/-! ## CMS122 (Diabetes: HbA1c Poor Control) -/

def cms122DiabScan (idxYear : Nat) (cm : Cms122Codes) :
    List EventRow → Bool → Except String Bool
  | [], hd => .ok hd
  | ev :: rest, hd =>
    match parse_date ev.event_date with
    | none => .error "ValueError"
    | some d =>
      if idxYear < d.year then cms122DiabScan idxYear cm rest hd
      else cms122DiabScan idxYear cm rest (hd || cm.diabetes.contains ev.code)

def cms122A1cReadings (idxYear : Nat) (cm : Cms122Codes) :
    List EventRow → Except String (List EventRow)
  | [] => .ok []
  | ev :: rest =>
    match parse_date ev.event_date with
    | none => .error "ValueError"
    | some d =>
      match cms122A1cReadings idxYear cm rest with
      | .error e => .error e
      | .ok l =>
        if d.year = idxYear ∧ cm.hba1cTest.contains ev.code then .ok (ev :: l)
        else .ok l

def evaluate_cms122 (index_date : PyDate) (cm : Cms122Codes)
    (patient : Option PatientRow) (encounters : List EncounterRow)
    (events : List EventRow) : Except String MeasureResult :=
  match patient with
  | none => .ok {}
  | some p =>
    match parse_date p.dob with
    | none => .error "ValueError"
    | some dob =>
      let age := calculate_age dob index_date
      let ip : Bool := decide (18 ≤ age) && decide (age ≤ 75)
      match anyEncounterInYear index_date.year encounters with
      | .error e => .error e
      | .ok hasEnc =>
        if !ip || !hasEnc then .ok { initial_population := ip }
        else
          match cms122DiabScan index_date.year cm events false with
          | .error e => .error e
          | .ok hasDiab =>
            if !hasDiab then .ok { initial_population := false }
            else
              match cms122A1cReadings index_date.year cm events with
              | .error e => .error e
              | .ok readings =>
                match (sortLe evDescLe readings).head? with
                | none =>
                  .ok { initial_population := true, denominator := true,
                        numerator := true, evidence := none }
                | some latest =>
                  .ok { initial_population := true, denominator := true,
                        numerator := (match latest.value_num with
                          | some v => decide ((9 : ℚ) < v)
                          | none => false),
                        evidence := some latest }

/-! ## Cohort data store -/

structure Sources where
  patients : List PatientRow
  encounters : List EncounterRow
  events : List EventRow
deriving DecidableEq, Repr

structure CacheState where
  cache_patients : List (String × PatientRow) := []
  cache_encounters : List (String × List EncounterRow) := []
  cache_events : List (String × List EventRow) := []
  target_cohort : List String := []
deriving DecidableEq, Repr

/-- Dict assignment `d[k] = v`: replace in place or append at the end. -/
def assocSet {α : Type} (k : String) (v : α) :
    List (String × α) → List (String × α)
  | [] => [(k, v)]
  | (k', v') :: rest =>
    if k' = k then (k, v) :: rest else (k', v') :: assocSet k v rest

/-- Model of `d.setdefault(k, []).append(v)`. -/
def assocAppend {α : Type} (k : String) (v : α) :
    List (String × List α) → List (String × List α)
  | [] => [(k, [v])]
  | (k', l) :: rest =>
    if k' = k then (k', l ++ [v]) :: rest else (k', l) :: assocAppend k v rest

/-- Set insertion (`self._target_cohort.add` / element of `update`). -/
def cohortInsert (k : String) (l : List String) : List String :=
  if k ∈ l then l else l ++ [k]

/-- The `patients.csv` scan of `_ensure_loaded`: first matching row wins
(the loop breaks). -/
def findPatientRow (pid : String) : List PatientRow → Option PatientRow
  | [] => none
  | row :: rest => if row.patient_id = pid then some row else findPatientRow pid rest

/-- Model of `_ensure_loaded`.  The `Nat` component counts how many of the three
source files were opened and scanned by the call. -/
def ensure_loaded (src : Sources) (pid : String) (st : CacheState) :
    CacheState × Nat :=
  if (st.cache_patients.lookup pid).isSome || pid ∈ st.target_cohort then (st, 0)
  else
    ({ cache_patients :=
        (match findPatientRow pid src.patients with
         | some row => assocSet row.patient_id row st.cache_patients
         | none => st.cache_patients),
       cache_encounters :=
        (src.encounters.foldl (fun acc row =>
          if row.patient_id = pid then assocAppend row.patient_id row acc else acc)
          st.cache_encounters),
       cache_events :=
        (src.events.foldl (fun acc row =>
          if row.patient_id = pid then assocAppend row.patient_id row acc else acc)
          st.cache_events),
       target_cohort := cohortInsert pid st.target_cohort }, 3)

/-- Model of `preload_cohort`.  The `Nat` component counts scanned source files
(0 when `missing` is empty, otherwise all three). -/
def preload_cohort (src : Sources) (cohort_ids : List String) (st : CacheState) :
    CacheState × Nat :=
  let missing := cohort_ids.filter (fun pid => (st.cache_patients.lookup pid).isNone)
  if missing = [] then (st, 0)
  else
    ({ cache_patients :=
        (src.patients.foldl (fun acc row =>
          if missing.contains row.patient_id then assocSet row.patient_id row acc else acc)
          st.cache_patients),
       cache_encounters :=
        (src.encounters.foldl (fun acc row =>
          if missing.contains row.patient_id then assocAppend row.patient_id row acc else acc)
          st.cache_encounters),
       cache_events :=
        (src.events.foldl (fun acc row =>
          if missing.contains row.patient_id then assocAppend row.patient_id row acc else acc)
          st.cache_events),
       target_cohort := missing.foldl (fun tc pid => cohortInsert pid tc) st.target_cohort }, 3)

/-- Result of `load_patient_data`, with the threaded cache state and the
number of files scanned made explicit. -/
structure LoadResult where
  state : CacheState
  scans : Nat
  patient : Option PatientRow
  encounters : List EncounterRow
  events : List EventRow
deriving DecidableEq, Repr

def load_patient_data (src : Sources) (pid : String) (st : CacheState) : LoadResult :=
  let (st', n) := ensure_loaded src pid st
  { state := st'
    scans := n
    patient := st'.cache_patients.lookup pid
    encounters := (st'.cache_encounters.lookup pid).getD []
    events := (st'.cache_events.lookup pid).getD [] }

/-! ## Evaluation facade -/

/-- Return value of `evaluate_all`: the `{"error": "Patient not found"}`
dict or the four per-measure results (CMS125, CMS130, CMS165, CMS122). -/
inductive EvalAllResult where
  | notFound : EvalAllResult
  | results : MeasureResult → MeasureResult → MeasureResult → MeasureResult → EvalAllResult
deriving DecidableEq, Repr

def evaluate_all (src : Sources) (cm : AllCodes) (index_date : PyDate)
    (pid : String) (st : CacheState) : CacheState × Except String EvalAllResult :=
  let L := load_patient_data src pid st
  match L.patient with
  | none => (L.state, .ok .notFound)
  | some p =>
    (L.state,
      match evaluate_cms125 index_date cm.c125 (some p) L.encounters L.events with
      | .error e => .error e
      | .ok r125 =>
        match evaluate_cms130 index_date cm.c130 (some p) L.encounters L.events with
        | .error e => .error e
        | .ok r130 =>
          match evaluate_cms165 index_date cm.c165 (some p) L.encounters L.events with
          | .error e => .error e
          | .ok r165 =>
            match evaluate_cms122 index_date cm.c122 (some p) L.encounters L.events with
            | .error e => .error e
            | .ok r122 => .ok (.results r125 r130 r165 r122))

def evaluate_patient (src : Sources) (cm : AllCodes) (index_date : PyDate)
    (pid : String) (measure_id : String) (st : CacheState) :
    CacheState × Except String (Bool × Bool × Option EventRow) :=
  let (st', res) := evaluate_all src cm index_date pid st
  (st',
    match res with
    | .error e => .error e
    | .ok .notFound => .ok (false, false, none)
    | .ok (.results r125 r130 r165 r122) =>
      if measure_id = "CMS125" then .ok (r125.denominator, r125.numerator, r125.evidence)
      else if measure_id = "CMS130" then .ok (r130.denominator, r130.numerator, r130.evidence)
      else if measure_id = "CMS165" then .ok (r165.denominator, r165.numerator, r165.evidence)
      else if measure_id = "CMS122" then .ok (r122.denominator, r122.numerator, r122.evidence)
      else .ok (false, false, none))

/-! ## Specification-side definitions

Named restatements of the spec's descriptions, used on the right-hand
side of the correctness theorems and compared there against the
behaviour of the translated source functions. -/

/-- Spec: the HbA1c-test events dated in the measurement year. -/
def hba1cReadingsOn (idxYear : Nat) (cm : Cms122Codes) (events : List EventRow) :
    List EventRow :=
  events.filter (fun ev =>
    (match parse_date ev.event_date with
     | some d => decide (d.year = idxYear)
     | none => false) && cm.hba1cTest.contains ev.code)

/-- Spec: a mammography event counts iff
`0 <= (index_date - event_date).days <= 821`. -/
def validMammo (index_date : PyDate) (cm : Cms125Codes) (ev : EventRow) : Bool :=
  cm.mammography.contains ev.code &&
    (match parse_date ev.event_date with
     | some d => decide (0 ≤ daysDiff index_date d) && decide (daysDiff index_date d ≤ 821)
     | none => false)

/-- Spec: the systolic readings (value and event) recorded under date
string `k` in the measurement year with a parseable numeric value. -/
def sysReadingsOn (idxYear : Nat) (cm : Cms165Codes) (events : List EventRow)
    (k : String) : List (ℚ × EventRow) :=
  events.filterMap (fun ev =>
    match parse_date ev.event_date, ev.value_num with
    | some d, some v =>
      if ev.event_date = k ∧ d.year = idxYear ∧ cm.systolic.contains ev.code = true
      then some (v, ev) else none
    | _, _ => none)

/-- Spec: the diastolic readings recorded under date string `k` in the
measurement year with a parseable numeric value (an event whose code is
in both categories is classified as systolic by the source's
`if`/`elif`). -/
def diaReadingsOn (idxYear : Nat) (cm : Cms165Codes) (events : List EventRow)
    (k : String) : List (ℚ × EventRow) :=
  events.filterMap (fun ev =>
    match parse_date ev.event_date, ev.value_num with
    | some d, some v =>
      if ev.event_date = k ∧ d.year = idxYear ∧ cm.systolic.contains ev.code = false
          ∧ cm.diastolic.contains ev.code = true
      then some (v, ev) else none
    | _, _ => none)

/-- Spec: a date (string) carrying both a systolic and a diastolic
reading in the measurement year. -/
def bpValidDay (idxYear : Nat) (cm : Cms165Codes) (events : List EventRow)
    (k : String) : Bool :=
  !(sysReadingsOn idxYear cm events k).isEmpty
    && !(diaReadingsOn idxYear cm events k).isEmpty

/-! ## Concrete fixtures used by counterexamples and witnesses -/

/-- Sources whose events file has a row for "X" while the patients file
does not. -/
def srcEventsOnlyX : Sources :=
  { patients := [], encounters := [], events := [⟨"X", "2025-01-01", "c", none⟩] }

/-- Sources whose patients file has a row for "X". -/
def srcPatientX : Sources :=
  { patients := [⟨"X", "1960-01-01", "F"⟩], encounters := [], events := [] }

/-- Sources with two event rows for "X" stored in strictly descending
date order. -/
def srcUnsortedEventsX : Sources :=
  { patients := [⟨"X", "1970-01-01", "F"⟩], encounters := [],
    events := [⟨"X", "2025-05-01", "a", none⟩, ⟨"X", "2024-01-01", "b", none⟩] }

/-- Sources whose encounters file has a row for "X" while the patients
file does not. -/
def srcEncountersOnlyX : Sources :=
  { patients := [], encounters := [⟨"X", "2025-01-01"⟩], events := [] }

/-- Sources holding a patient whose events file contains a row with an
unparseable date. -/
def srcMalformedEvent : Sources :=
  { patients := [⟨"p", "1975-01-01", "M"⟩],
    encounters := [⟨"p", "2025-06-01"⟩],
    events := [⟨"p", "garbage", "c", none⟩] }

/-- An empty value-set configuration for all four measures. -/
def emptyAllCodes : AllCodes :=
  { c125 := ⟨[], [], [], [], [], []⟩,
    c130 := ⟨[], [], [], []⟩,
    c165 := ⟨[], [], [], [], [], [], [], [], [], [], []⟩,
    c122 := ⟨[], []⟩ }

/-! ## Order, sort and minimum lemmas -/

theorem pyDateLe_refl (a : PyDate) : pyDateLe a a = true := by
  simp [pyDateLe]

theorem pyDateLe_trans {a b c : PyDate} (hab : pyDateLe a b = true)
    (hbc : pyDateLe b c = true) : pyDateLe a c = true := by
  simp only [pyDateLe, decide_eq_true_eq] at hab hbc ⊢
  omega

theorem pyDateLe_total (a b : PyDate) : (pyDateLe a b || pyDateLe b a) = true := by
  simp only [pyDateLe, Bool.or_eq_true, decide_eq_true_eq]
  omega

theorem evDescLe_trans (a b c : EventRow) (hab : evDescLe a b = true)
    (hbc : evDescLe b c = true) : evDescLe a c = true :=
  pyDateLe_trans hbc hab

theorem evDescLe_total (a b : EventRow) : (evDescLe a b || evDescLe b a) = true := by
  simpa [evDescLe, Bool.or_comm] using pyDateLe_total (evKey a) (evKey b)

theorem strDescLe_trans (a b c : String) (hab : strDescLe a b = true)
    (hbc : strDescLe b c = true) : strDescLe a c = true :=
  pyDateLe_trans hbc hab

theorem strDescLe_total (a b : String) : (strDescLe a b || strDescLe b a) = true := by
  simpa [strDescLe, Bool.or_comm] using
    pyDateLe_total ((parse_date a).getD ⟨0, 0, 0⟩) ((parse_date b).getD ⟨0, 0, 0⟩)

theorem mem_insertLe {α : Type} (le : α → α → Bool) (x a : α) (l : List α) :
    a ∈ insertLe le x l ↔ a = x ∨ a ∈ l := by
  induction l with
  | nil => simp [insertLe]
  | cons y ys ih =>
    simp only [insertLe]
    split
    · simp [List.mem_cons]
    · simp only [List.mem_cons, ih]
      tauto

theorem mem_sortLe {α : Type} (le : α → α → Bool) (a : α) (l : List α) :
    a ∈ sortLe le l ↔ a ∈ l := by
  induction l with
  | nil => simp [sortLe]
  | cons y ys ih => simp [sortLe, mem_insertLe, ih]

theorem insertLe_ne_nil {α : Type} (le : α → α → Bool) (x : α) (l : List α) :
    insertLe le x l ≠ [] := by
  cases l with
  | nil => simp [insertLe]
  | cons y ys =>
    simp only [insertLe]
    split <;> simp

theorem sortLe_eq_nil_iff {α : Type} (le : α → α → Bool) (l : List α) :
    sortLe le l = [] ↔ l = [] := by
  cases l with
  | nil => simp [sortLe]
  | cons x xs => simp [sortLe, insertLe_ne_nil]

theorem pairwise_insertLe {α : Type} {le : α → α → Bool}
    (htrans : ∀ a b c, le a b = true → le b c = true → le a c = true)
    (htotal : ∀ a b, (le a b || le b a) = true)
    (x : α) {l : List α} (h : l.Pairwise (fun a b => le a b = true)) :
    (insertLe le x l).Pairwise (fun a b => le a b = true) := by
  induction l with
  | nil => simp [insertLe]
  | cons y ys ih =>
    rw [List.pairwise_cons] at h
    simp only [insertLe]
    split
    · rename_i hxy
      rw [List.pairwise_cons]
      constructor
      · intro a ha
        rcases List.mem_cons.1 ha with rfl | ha
        · exact hxy
        · exact htrans x y a hxy (h.1 a ha)
      · exact List.pairwise_cons.2 h
    · rename_i hxy
      have hyx : le y x = true := by
        have := htotal x y
        simp only [Bool.or_eq_true] at this
        rcases this with h' | h'
        · exact absurd h' hxy
        · exact h'
      rw [List.pairwise_cons]
      constructor
      · intro a ha
        rcases (mem_insertLe le x a ys).1 ha with rfl | ha
        · exact hyx
        · exact h.1 a ha
      · exact ih h.2

theorem pairwise_sortLe {α : Type} {le : α → α → Bool}
    (htrans : ∀ a b c, le a b = true → le b c = true → le a c = true)
    (htotal : ∀ a b, (le a b || le b a) = true) (l : List α) :
    (sortLe le l).Pairwise (fun a b => le a b = true) := by
  induction l with
  | nil => simp [sortLe]
  | cons x xs ih => exact pairwise_insertLe htrans htotal x ih

/-- The head of the sorted list is a member of the original list and a
maximum for the (descending) comparison. -/
theorem head_sortLe {α : Type} {le : α → α → Bool}
    (htrans : ∀ a b c, le a b = true → le b c = true → le a c = true)
    (htotal : ∀ a b, (le a b || le b a) = true) {l xs : List α} {x : α}
    (h : sortLe le l = x :: xs) : x ∈ l ∧ ∀ y ∈ l, le x y = true := by
  have hp := pairwise_sortLe htrans htotal l
  rw [h, List.pairwise_cons] at hp
  constructor
  · have : x ∈ sortLe le l := by rw [h]; exact List.mem_cons_self x xs
    exact (mem_sortLe le x l).1 this
  · intro y hy
    have : y ∈ x :: xs := by rw [← h]; exact (mem_sortLe le y l).2 hy
    rcases List.mem_cons.1 this with h' | hy'
    · subst h'
      have := htotal y y
      simpa using this
    · exact hp.1 y hy'

theorem foldl_min_mem (xs : List ℚ) (x : ℚ) : xs.foldl min x ∈ x :: xs := by
  induction xs generalizing x with
  | nil => simp
  | cons y ys ih =>
    show List.foldl min (min x y) ys ∈ x :: y :: ys
    have h := ih (min x y)
    rcases List.mem_cons.1 h with h' | h'
    · rw [h']
      rcases min_choice x y with hm | hm <;> rw [hm] <;> simp
    · simp [h']

theorem foldl_min_le (xs : List ℚ) (x : ℚ) :
    xs.foldl min x ≤ x ∧ ∀ y ∈ xs, xs.foldl min x ≤ y := by
  induction xs generalizing x with
  | nil => simp
  | cons y ys ih =>
    obtain ⟨h1, h2⟩ := ih (min x y)
    refine ⟨le_trans h1 (min_le_left x y), ?_⟩
    intro z hz
    rcases List.mem_cons.1 hz with rfl | hz
    · exact le_trans h1 (min_le_right x z)
    · exact h2 z hz

theorem minQ_mem {l : List ℚ} (h : l ≠ []) : minQ l ∈ l := by
  cases l with
  | nil => exact absurd rfl h
  | cons x xs => exact foldl_min_mem xs x

theorem minQ_le {l : List ℚ} : ∀ y ∈ l, minQ l ≤ y := by
  cases l with
  | nil => simp
  | cons x xs =>
    intro y hy
    rcases List.mem_cons.1 hy with rfl | hy
    · exact (foldl_min_le xs y).1
    · exact (foldl_min_le xs x).2 y hy

/-! ## Result invariants of the four evaluators -/

theorem cms125_result_inv {idx : PyDate} {cm : Cms125Codes} {p : Option PatientRow}
    {encs : List EncounterRow} {evs : List EventRow} {r : MeasureResult}
    (h : evaluate_cms125 idx cm p encs evs = .ok r) :
    (r.exclusion = true → r.denominator = false) ∧
      (r.denominator = false → r.numerator = false) := by
  rcases p with _ | p <;> simp only [evaluate_cms125] at h
  all_goals repeat' split at h
  all_goals first
    | (injection h with h; subst h; exact ⟨by simp, by simp⟩)
    | injection h

theorem cms130_result_inv {idx : PyDate} {cm : Cms130Codes} {p : Option PatientRow}
    {encs : List EncounterRow} {evs : List EventRow} {r : MeasureResult}
    (h : evaluate_cms130 idx cm p encs evs = .ok r) :
    (r.exclusion = true → r.denominator = false) ∧
      (r.denominator = false → r.numerator = false) := by
  rcases p with _ | p <;> simp only [evaluate_cms130] at h
  all_goals repeat' split at h
  all_goals first
    | (injection h with h; subst h; exact ⟨by simp, by simp⟩)
    | injection h

theorem cms165_result_inv {idx : PyDate} {cm : Cms165Codes} {p : Option PatientRow}
    {encs : List EncounterRow} {evs : List EventRow} {r : MeasureResult}
    (h : evaluate_cms165 idx cm p encs evs = .ok r) :
    (r.exclusion = true → r.denominator = false) ∧
      (r.denominator = false → r.numerator = false) := by
  rcases p with _ | p <;> simp only [evaluate_cms165] at h
  all_goals repeat' split at h
  all_goals first
    | (injection h with h; subst h; exact ⟨by simp, by simp⟩)
    | injection h

theorem cms122_result_inv {idx : PyDate} {cm : Cms122Codes} {p : Option PatientRow}
    {encs : List EncounterRow} {evs : List EventRow} {r : MeasureResult}
    (h : evaluate_cms122 idx cm p encs evs = .ok r) :
    (r.exclusion = true → r.denominator = false) ∧
      (r.denominator = false → r.numerator = false) := by
  rcases p with _ | p <;> simp only [evaluate_cms122] at h
  all_goals repeat' split at h
  all_goals first
    | (injection h with h; subst h; exact ⟨by simp, by simp⟩)
    | injection h

/-- C1: for every patient and every measure evaluator (`evaluate_cms125`,
`evaluate_cms130`, `evaluate_cms165`, `evaluate_cms122`), any returned
result satisfies: exclusion implies denominator = false, and
denominator = false implies numerator = false. -/
theorem C1_exclusion_denominator_numerator_invariant
    (idx : PyDate) (cm125 : Cms125Codes) (cm130 : Cms130Codes)
    (cm165 : Cms165Codes) (cm122 : Cms122Codes) (p : Option PatientRow)
    (encs : List EncounterRow) (evs : List EventRow) (r : MeasureResult)
    (h : evaluate_cms125 idx cm125 p encs evs = .ok r ∨
      evaluate_cms130 idx cm130 p encs evs = .ok r ∨
      evaluate_cms165 idx cm165 p encs evs = .ok r ∨
      evaluate_cms122 idx cm122 p encs evs = .ok r) :
    (r.exclusion = true → r.denominator = false) ∧
      (r.denominator = false → r.numerator = false) := by
  rcases h with h | h | h | h
  · exact cms125_result_inv h
  · exact cms130_result_inv h
  · exact cms165_result_inv h
  · exact cms122_result_inv h

/-- Witness for C1 at a concrete input (absent patient, empty rows). -/
theorem C1_witness :
    (({} : MeasureResult).exclusion = true → ({} : MeasureResult).denominator = false) ∧
      (({} : MeasureResult).denominator = false → ({} : MeasureResult).numerator = false) :=
  C1_exclusion_denominator_numerator_invariant ⟨2025, 12, 31⟩
    ⟨[], [], [], [], [], []⟩ ⟨[], [], [], []⟩
    ⟨[], [], [], [], [], [], [], [], [], [], []⟩ ⟨[], []⟩
    none [] [] {} (Or.inl rfl)

/-! ## CMS122 numerator semantics -/

theorem cms122A1cReadings_ok {idxYear : Nat} {cm : Cms122Codes}
    {events : List EventRow} {l : List EventRow}
    (h : cms122A1cReadings idxYear cm events = .ok l) :
    l = hba1cReadingsOn idxYear cm events := by
  induction events generalizing l with
  | nil =>
    simp only [cms122A1cReadings] at h
    injection h with h
    subst h
    rfl
  | cons ev rest ih =>
    simp only [cms122A1cReadings] at h
    split at h
    · exact absurd h (by simp)
    · rename_i d hp
      split at h
      · exact absurd h (by simp)
      · rename_i l' hr
        have hl' := ih hr
        split at h
        · rename_i hcond
          injection h with h
          subst h
          have hcondb : ((match parse_date ev.event_date with
              | some d => decide (d.year = idxYear)
              | none => false) && cm.hba1cTest.contains ev.code) = true := by
            rw [hp]
            show (decide (d.year = idxYear) && cm.hba1cTest.contains ev.code) = true
            rw [decide_eq_true hcond.1, hcond.2]
            rfl
          have hstep : hba1cReadingsOn idxYear cm (ev :: rest)
              = ev :: hba1cReadingsOn idxYear cm rest :=
            List.filter_cons_of_pos hcondb
          rw [hstep, hl']
        · rename_i hcond
          injection h with h
          subst h
          have hcondb : ((match parse_date ev.event_date with
              | some d => decide (d.year = idxYear)
              | none => false) && cm.hba1cTest.contains ev.code) = false := by
            rw [hp]
            show (decide (d.year = idxYear) && cm.hba1cTest.contains ev.code) = false
            rcases Bool.eq_false_or_eq_true (cm.hba1cTest.contains ev.code) with hc | hc
            all_goals first
              | rw [hc, Bool.and_false]
              | (rw [hc, Bool.and_true]
                 exact decide_eq_false fun hy => hcond ⟨hy, hc⟩)
          have hstep : hba1cReadingsOn idxYear cm (ev :: rest)
              = hba1cReadingsOn idxYear cm rest :=
            List.filter_cons_of_neg (by rw [hcondb]; exact Bool.false_ne_true)
          rw [hstep, hl']

/-- C2: for every patient in the CMS122 denominator: with no HbA1c-test
event dated in the measurement year the numerator is true and the
evidence is null; otherwise the evidence is a most-recent qualifying
test and the numerator is true exactly when its numeric value exceeds
9.0 (false when the value is at or below 9.0 or not parseable). -/
theorem C2_cms122_poor_control (idx : PyDate) (cm : Cms122Codes)
    (patient : Option PatientRow) (encs : List EncounterRow)
    (events : List EventRow) (r : MeasureResult)
    (h : evaluate_cms122 idx cm patient encs events = .ok r)
    (hd : r.denominator = true) :
    (hba1cReadingsOn idx.year cm events = [] →
      r.numerator = true ∧ r.evidence = none) ∧
    (hba1cReadingsOn idx.year cm events ≠ [] →
      ∃ latest, latest ∈ hba1cReadingsOn idx.year cm events ∧
        r.evidence = some latest ∧
        (∀ ev ∈ hba1cReadingsOn idx.year cm events,
          pyDateLe (evKey ev) (evKey latest) = true) ∧
        r.numerator = (match latest.value_num with
          | some v => decide ((9 : ℚ) < v)
          | none => false)) := by
  rcases patient with _ | p <;> simp only [evaluate_cms122] at h
  · injection h with h
    subst h
    exact absurd hd (by simp)
  · split at h
    · exact absurd h (by simp)
    · rename_i dob hp
      split at h
      · exact absurd h (by simp)
      · rename_i hasEnc he
        split at h
        · injection h with h
          subst h
          exact absurd hd (by simp)
        · split at h
          · exact absurd h (by simp)
          · rename_i hasDiab hdiab
            split at h
            · injection h with h
              subst h
              exact absurd hd (by simp)
            · split at h
              · exact absurd h (by simp)
              · rename_i readings hread
                have hchar := cms122A1cReadings_ok hread
                split at h
                · rename_i hheadnil
                  injection h with h
                  subst h
                  have hnil : sortLe evDescLe readings = [] := by
                    cases hs' : sortLe evDescLe readings with
                    | nil => rfl
                    | cons a as => rw [hs'] at hheadnil; simp at hheadnil
                  have hempty := (sortLe_eq_nil_iff evDescLe readings).1 hnil
                  constructor
                  · intro _
                    exact ⟨rfl, rfl⟩
                  · intro hne
                    exact absurd (by rw [← hchar]; exact hempty) hne
                · rename_i latest hhead
                  injection h with h
                  subst h
                  obtain ⟨xs, hs⟩ : ∃ xs, sortLe evDescLe readings = latest :: xs := by
                    cases hs' : sortLe evDescLe readings with
                    | nil => rw [hs'] at hhead; simp at hhead
                    | cons a as =>
                      rw [hs'] at hhead
                      simp only [List.head?_cons, Option.some.injEq] at hhead
                      exact ⟨as, by rw [hhead]⟩
                  obtain ⟨hmem, hmax⟩ := head_sortLe evDescLe_trans evDescLe_total hs
                  constructor
                  · intro hnil
                    rw [hchar, hnil] at hs
                    simp [sortLe] at hs
                  · intro _
                    refine ⟨latest, ?_, rfl, ?_, rfl⟩
                    · rw [← hchar]
                      exact hmem
                    · intro ev hev
                      rw [← hchar] at hev
                      exact hmax ev hev

/-- Witness for C2: a diabetic patient with no HbA1c test in the
measurement year is numerator-true with null evidence. -/
theorem C2_witness :
    ({ initial_population := true, denominator := true, numerator := true,
        evidence := none } : MeasureResult).numerator = true ∧
      ({ initial_population := true, denominator := true, numerator := true,
          evidence := none } : MeasureResult).evidence = none :=
  (C2_cms122_poor_control ⟨2025, 12, 31⟩ ⟨["E11.9"], ["4548-4"]⟩
    (some ⟨"p1", "1960-01-01", "M"⟩) [⟨"p1", "2025-06-01"⟩]
    [⟨"p1", "2020-01-01", "E11.9", none⟩] _ rfl rfl).1 rfl

/-! ## CMS125 numerator semantics -/

theorem cms125ValidMammos_ok {idx : PyDate} {cm : Cms125Codes}
    {events : List EventRow} {l : List EventRow}
    (h : cms125ValidMammos idx cm events = .ok l) :
    l = events.filter (validMammo idx cm) := by
  induction events generalizing l with
  | nil =>
    simp only [cms125ValidMammos] at h
    injection h with h
    subst h
    rfl
  | cons ev rest ih =>
    simp only [cms125ValidMammos] at h
    split at h
    · rename_i hcontains
      split at h
      · exact absurd h (by simp)
      · rename_i d hp
        split at h
        · exact absurd h (by simp)
        · rename_i l' hr
          have hl' := ih hr
          split at h
          · rename_i hwin
            injection h with h
            subst h
            have hv : validMammo idx cm ev = true := by
              unfold validMammo
              rw [hp, hcontains]
              show (true && (decide (0 ≤ daysDiff idx d) && decide (daysDiff idx d ≤ 821))) = true
              rw [Bool.true_and, Bool.and_eq_true]
              exact ⟨decide_eq_true hwin.1, decide_eq_true hwin.2⟩
            rw [List.filter_cons_of_pos hv, hl']
          · rename_i hwin
            injection h with h
            subst h
            have hv : validMammo idx cm ev = false := by
              unfold validMammo
              rw [hp, hcontains]
              show (true && (decide (0 ≤ daysDiff idx d) && decide (daysDiff idx d ≤ 821))) = false
              rw [Bool.true_and]
              rcases Decidable.em (0 ≤ daysDiff idx d) with hA | hA
              · rw [decide_eq_true hA, Bool.true_and]
                exact decide_eq_false fun hB => hwin ⟨hA, hB⟩
              · rw [decide_eq_false hA, Bool.false_and]
            rw [List.filter_cons_of_neg (by rw [hv]; exact Bool.false_ne_true), hl']
    · rename_i hcontains
      have hc : cm.mammography.contains ev.code = false :=
        Bool.eq_false_iff.mpr hcontains
      have hl' := ih h
      have hv : validMammo idx cm ev = false := by
        unfold validMammo
        rw [hc, Bool.false_and]
      rw [List.filter_cons_of_neg (by rw [hv]; exact Bool.false_ne_true), hl']

/-- C5: for every patient in the CMS125 denominator, a mammography event
counts toward the numerator iff `0 <= (index_date - event_date).days <=
821` (`validMammo`); the numerator is true exactly when some event
counts; the evidence is a counting event of maximal date; and, with
index date 2024-12-31, an event dated 2022-10-02 counts while one dated
2022-10-01 does not. -/
theorem C5_cms125_window (idx : PyDate) (cm : Cms125Codes)
    (patient : Option PatientRow) (encs : List EncounterRow)
    (events : List EventRow) (r : MeasureResult)
    (h : evaluate_cms125 idx cm patient encs events = .ok r)
    (hd : r.denominator = true) :
    (r.numerator = true ↔ ∃ ev ∈ events, validMammo idx cm ev = true) ∧
    (∀ m, r.evidence = some m → m ∈ events ∧ validMammo idx cm m = true ∧
      ∀ ev ∈ events, validMammo idx cm ev = true →
        pyDateLe (evKey ev) (evKey m) = true) ∧
    (r.numerator = true → ∃ m, r.evidence = some m) ∧
    validMammo ⟨2024, 12, 31⟩ ⟨[], [], [], [], [], ["77067"]⟩
      ⟨"p", "2022-10-02", "77067", none⟩ = true ∧
    validMammo ⟨2024, 12, 31⟩ ⟨[], [], [], [], [], ["77067"]⟩
      ⟨"p", "2022-10-01", "77067", none⟩ = false := by
  rcases patient with _ | p <;> simp only [evaluate_cms125] at h
  · injection h with h
    subst h
    exact absurd hd (by simp)
  · split at h
    · injection h with h
      subst h
      exact absurd hd (by simp)
    · split at h
      · exact absurd h (by simp)
      · rename_i dob hp
        split at h
        · exact absurd h (by simp)
        · rename_i hasEnc he
          split at h
          · injection h with h
            subst h
            exact absurd hd (by simp)
          · split at h
            · exact absurd h (by simp)
            · rename_i b lft rgt hflags
              split at h
              · injection h with h
                subst h
                exact absurd hd (by simp)
              · split at h
                · exact absurd h (by simp)
                · rename_i mammos hmam
                  have hchar := cms125ValidMammos_ok hmam
                  split at h
                  · rename_i hheadnil
                    injection h with h
                    subst h
                    have hnil : sortLe evDescLe mammos = [] := by
                      cases hs' : sortLe evDescLe mammos with
                      | nil => rfl
                      | cons a as => rw [hs'] at hheadnil; simp at hheadnil
                    have hempty := (sortLe_eq_nil_iff evDescLe mammos).1 hnil
                    have hfil : events.filter (validMammo idx cm) = [] := by
                      rw [← hchar]; exact hempty
                    refine ⟨?_, ?_, ?_, by decide, by decide⟩
                    · constructor
                      · intro hn
                        exact absurd hn (by simp)
                      · rintro ⟨ev, hev, hv⟩
                        have : ev ∈ events.filter (validMammo idx cm) :=
                          List.mem_filter.mpr ⟨hev, hv⟩
                        rw [hfil] at this
                        exact absurd this (by simp)
                    · intro m hm
                      exact absurd hm (by simp)
                    · intro hn
                      exact absurd hn (by simp)
                  · rename_i m hhead
                    injection h with h
                    subst h
                    obtain ⟨xs, hs⟩ : ∃ xs, sortLe evDescLe mammos = m :: xs := by
                      cases hs' : sortLe evDescLe mammos with
                      | nil => rw [hs'] at hhead; simp at hhead
                      | cons a as =>
                        rw [hs'] at hhead
                        simp only [List.head?_cons, Option.some.injEq] at hhead
                        exact ⟨as, by rw [hhead]⟩
                    obtain ⟨hmem, hmax⟩ := head_sortLe evDescLe_trans evDescLe_total hs
                    rw [hchar] at hmem
                    obtain ⟨hmemev, hvm⟩ := List.mem_filter.mp hmem
                    refine ⟨?_, ?_, ?_, by decide, by decide⟩
                    · exact ⟨fun _ => ⟨m, hmemev, hvm⟩, fun _ => rfl⟩
                    · intro m' hm'
                      have hm'' : m = m' := by
                        simpa using hm'
                      subst hm''
                      refine ⟨hmemev, hvm, ?_⟩
                      intro ev hev hv
                      have : ev ∈ mammos := by
                        rw [hchar]
                        exact List.mem_filter.mpr ⟨hev, hv⟩
                      exact hmax ev this
                    · intro _
                      exact ⟨m, rfl⟩

/-- Witness for C5: the window-boundary instances with index date
2024-12-31, obtained from the theorem at the spec's end-to-end scenario
(female patient born 1970-01-01, encounter 2024-05-10, mammogram
2023-12-01). -/
theorem C5_witness :
    validMammo ⟨2024, 12, 31⟩ ⟨[], [], [], [], [], ["77067"]⟩
        ⟨"p", "2022-10-02", "77067", none⟩ = true ∧
      validMammo ⟨2024, 12, 31⟩ ⟨[], [], [], [], [], ["77067"]⟩
        ⟨"p", "2022-10-01", "77067", none⟩ = false :=
  (C5_cms125_window ⟨2024, 12, 31⟩ ⟨[], [], [], [], [], ["77067"]⟩
    (some ⟨"p", "1970-01-01", "F"⟩) [⟨"p", "2024-05-10"⟩]
    [⟨"p", "2023-12-01", "77067", none⟩] _ rfl rfl).2.2.2

/-! ## Association-list and scan lemmas for the cohort data store -/

theorem lookup_assocSet_self {α : Type} (k : String) (v : α) (l : List (String × α)) :
    (assocSet k v l).lookup k = some v := by
  induction l with
  | nil => simp [assocSet, List.lookup]
  | cons kv rest ih =>
    obtain ⟨k', v'⟩ := kv
    simp only [assocSet]
    split
    · simp [List.lookup]
    · rename_i hne
      have hb : (k == k') = false := beq_eq_false_iff_ne.mpr fun he => hne he.symm
      simp [List.lookup, hb, ih]

theorem lookup_assocSet_other {α : Type} {k k' : String} (h : k' ≠ k) (v : α)
    (l : List (String × α)) : (assocSet k v l).lookup k' = l.lookup k' := by
  induction l with
  | nil => simp [assocSet, List.lookup, beq_eq_false_iff_ne.mpr h]
  | cons kv rest ih =>
    obtain ⟨k0, v0⟩ := kv
    simp only [assocSet]
    split
    · rename_i he
      subst he
      simp [List.lookup, beq_eq_false_iff_ne.mpr h]
    · simp only [List.lookup, ih]

theorem lookup_assocSet_isSome {α : Type} (k k0 : String) (v : α)
    (l : List (String × α)) :
    ((assocSet k0 v l).lookup k).isSome = true ↔
      k = k0 ∨ (l.lookup k).isSome = true := by
  by_cases hk : k = k0
  · subst hk
    rw [lookup_assocSet_self]
    simp
  · rw [lookup_assocSet_other hk]
    simp [hk]

theorem lookup_assocAppend_self {α : Type} (k : String) (v : α)
    (l : List (String × List α)) :
    (assocAppend k v l).lookup k = some (((l.lookup k).getD []) ++ [v]) := by
  induction l with
  | nil => simp [assocAppend, List.lookup]
  | cons kv rest ih =>
    obtain ⟨k', l'⟩ := kv
    simp only [assocAppend]
    split
    · rename_i he
      subst he
      simp [List.lookup]
    · rename_i hne
      have hb : (k == k') = false := beq_eq_false_iff_ne.mpr fun he => hne he.symm
      simp [List.lookup, hb, ih]

theorem lookup_assocAppend_other {α : Type} {k k' : String} (h : k' ≠ k) (v : α)
    (l : List (String × List α)) :
    (assocAppend k v l).lookup k' = l.lookup k' := by
  induction l with
  | nil => simp [assocAppend, List.lookup, beq_eq_false_iff_ne.mpr h]
  | cons kv rest ih =>
    obtain ⟨k0, v0⟩ := kv
    simp only [assocAppend]
    split
    · rename_i he
      subst he
      simp [List.lookup, beq_eq_false_iff_ne.mpr h]
    · simp only [List.lookup, ih]

theorem encFold_lookup (pid : String) (rows : List EncounterRow)
    (acc : List (String × List EncounterRow)) :
    (((rows.foldl (fun acc row =>
        if row.patient_id = pid then assocAppend row.patient_id row acc else acc)
        acc).lookup pid).getD []) =
      ((acc.lookup pid).getD []) ++ rows.filter (fun row => row.patient_id == pid) := by
  induction rows generalizing acc with
  | nil => simp
  | cons row rest ih =>
    simp only [List.foldl_cons]
    by_cases hk : row.patient_id = pid
    · rw [if_pos hk, ih, hk, lookup_assocAppend_self]
      rw [@List.filter_cons_of_pos EncounterRow (fun row => row.patient_id == pid)
        row rest (beq_iff_eq.mpr hk)]
      simp
    · rw [if_neg hk, ih]
      rw [@List.filter_cons_of_neg EncounterRow (fun row => row.patient_id == pid)
        row rest (by simpa using hk)]

theorem evFold_lookup (pid : String) (rows : List EventRow)
    (acc : List (String × List EventRow)) :
    (((rows.foldl (fun acc row =>
        if row.patient_id = pid then assocAppend row.patient_id row acc else acc)
        acc).lookup pid).getD []) =
      ((acc.lookup pid).getD []) ++ rows.filter (fun row => row.patient_id == pid) := by
  induction rows generalizing acc with
  | nil => simp
  | cons row rest ih =>
    simp only [List.foldl_cons]
    by_cases hk : row.patient_id = pid
    · rw [if_pos hk, ih, hk, lookup_assocAppend_self]
      rw [@List.filter_cons_of_pos EventRow (fun row => row.patient_id == pid)
        row rest (beq_iff_eq.mpr hk)]
      simp
    · rw [if_neg hk, ih]
      rw [@List.filter_cons_of_neg EventRow (fun row => row.patient_id == pid)
        row rest (by simpa using hk)]

theorem patFold_lookup_isSome (missing : List String) (rows : List PatientRow)
    (acc : List (String × PatientRow)) (k : String) :
    (((rows.foldl (fun acc row =>
        if missing.contains row.patient_id then assocSet row.patient_id row acc else acc)
        acc).lookup k).isSome = true) ↔
      ((acc.lookup k).isSome = true ∨
        (missing.contains k = true ∧ ∃ row ∈ rows, row.patient_id = k)) := by
  induction rows generalizing acc with
  | nil => simp
  | cons row rest ih =>
    simp only [List.foldl_cons]
    by_cases hm : missing.contains row.patient_id = true
    · rw [if_pos hm, ih]
      constructor
      · rintro (h1 | h2)
        · rcases (lookup_assocSet_isSome k row.patient_id row acc).1 h1 with he | hacc
          · subst he
            exact Or.inr ⟨hm, row, List.mem_cons_self row rest, rfl⟩
          · exact Or.inl hacc
        · exact Or.inr ⟨h2.1, h2.2.choose,
            List.mem_cons_of_mem row h2.2.choose_spec.1, h2.2.choose_spec.2⟩
      · rintro (h1 | ⟨hmk, row', hmem, hpid⟩)
        · exact Or.inl ((lookup_assocSet_isSome k row.patient_id row acc).2 (Or.inr h1))
        · rcases List.mem_cons.1 hmem with he | hmem'
          · subst he
            exact Or.inl ((lookup_assocSet_isSome k row'.patient_id row' acc).2
              (Or.inl hpid.symm))
          · exact Or.inr ⟨hmk, row', hmem', hpid⟩
    · rw [if_neg hm, ih]
      constructor
      · rintro (h1 | h2)
        · exact Or.inl h1
        · exact Or.inr ⟨h2.1, h2.2.choose,
            List.mem_cons_of_mem row h2.2.choose_spec.1, h2.2.choose_spec.2⟩
      · rintro (h1 | ⟨hmk, row', hmem, hpid⟩)
        · exact Or.inl h1
        · rcases List.mem_cons.1 hmem with he | hmem'
          · subst he
            rw [hpid] at hm
            exact absurd hmk hm
          · exact Or.inr ⟨hmk, row', hmem', hpid⟩

theorem findPatientRow_eq_none {pid : String} {rows : List PatientRow}
    (h : ∀ row ∈ rows, row.patient_id ≠ pid) : findPatientRow pid rows = none := by
  induction rows with
  | nil => rfl
  | cons row rest ih =>
    simp only [findPatientRow]
    rw [if_neg (h row (List.mem_cons_self row rest))]
    exact ih fun r hr => h r (List.mem_cons_of_mem row hr)

/-! ## Preload idempotence (C3) -/

theorem preload_cached {src : Sources} {cohort : List String} {st : CacheState}
    {pid : String} (hpid : pid ∈ cohort)
    (hcov : (st.cache_patients.lookup pid).isSome = true ∨
      ∃ row ∈ src.patients, row.patient_id = pid) :
    (((preload_cohort src cohort st).1).cache_patients.lookup pid).isSome = true := by
  by_cases hsplit : cohort.filter (fun pid => (st.cache_patients.lookup pid).isNone) = []
  · have h1 : preload_cohort src cohort st = (st, 0) := by
      simp only [preload_cohort]
      rw [hsplit]
      simp
    rw [h1]
    have hn := List.filter_eq_nil_iff.mp hsplit pid hpid
    rcases ho : st.cache_patients.lookup pid with _ | v
    · rw [ho] at hn
      simp at hn
    · simp
  · have h1 : (preload_cohort src cohort st).1.cache_patients =
        src.patients.foldl (fun acc row =>
          if (cohort.filter (fun pid => (st.cache_patients.lookup pid).isNone)).contains
              row.patient_id
          then assocSet row.patient_id row acc else acc) st.cache_patients := by
      simp only [preload_cohort]
      rw [if_neg hsplit]
    rw [h1, patFold_lookup_isSome]
    by_cases hc : (st.cache_patients.lookup pid).isSome = true
    · exact Or.inl hc
    · right
      have hnone : (st.cache_patients.lookup pid).isNone = true := by
        rcases ho : st.cache_patients.lookup pid with _ | v
        · rfl
        · rw [ho] at hc
          simp at hc
      refine ⟨?_, ?_⟩
      · exact List.elem_iff.mpr (List.mem_filter.mpr ⟨hpid, hnone⟩)
      · rcases hcov with hs | hex
        · exact absurd hs hc
        · exact hex

theorem preload_noop {src : Sources} {cohort : List String} {st : CacheState}
    (hall : ∀ pid ∈ cohort, (st.cache_patients.lookup pid).isSome = true) :
    preload_cohort src cohort st = (st, 0) := by
  have hmiss : cohort.filter (fun pid => (st.cache_patients.lookup pid).isNone) = [] := by
    rw [List.filter_eq_nil_iff]
    intro pid hpid
    have hs := hall pid hpid
    rcases ho : st.cache_patients.lookup pid with _ | v
    · rw [ho] at hs
      simp at hs
    · simp
  simp only [preload_cohort]
  rw [hmiss]
  simp

/-- C3 counterexample: for the cohort `{"X"}` whose id has an events row
but no patients row, the second `preload_cohort` call scans all three
files again and duplicates the cached event rows, refuting the claimed
no-op. -/
theorem C3_counterexample :
    (preload_cohort srcEventsOnlyX ["X"]
        (preload_cohort srcEventsOnlyX ["X"] {}).1).2 = 3 ∧
      (preload_cohort srcEventsOnlyX ["X"]
          (preload_cohort srcEventsOnlyX ["X"] {}).1).1.cache_events ≠
        (preload_cohort srcEventsOnlyX ["X"] {}).1.cache_events ∧
      ¬((preload_cohort srcEventsOnlyX ["X"]
            (preload_cohort srcEventsOnlyX ["X"] {}).1).1 =
          (preload_cohort srcEventsOnlyX ["X"] {}).1 ∧
        (preload_cohort srcEventsOnlyX ["X"]
            (preload_cohort srcEventsOnlyX ["X"] {}).1).2 = 0) := by
  decide

/-- C3 (amended): when every id of the cohort is already cached or
occurs in the patients source, calling `preload_cohort` twice in
succession leaves the state of the first call unchanged and the second
call scans none of the three source files. -/
theorem C3_preload_idempotent (src : Sources) (cohort : List String) (st : CacheState)
    (hcov : ∀ pid ∈ cohort, (st.cache_patients.lookup pid).isSome = true ∨
      ∃ row ∈ src.patients, row.patient_id = pid) :
    preload_cohort src cohort (preload_cohort src cohort st).1 =
      ((preload_cohort src cohort st).1, 0) :=
  preload_noop fun pid hpid => preload_cached hpid (hcov pid hpid)

/-- Witness for C3 at a concrete cohort fully covered by the patients
source. -/
theorem C3_witness :
    preload_cohort srcPatientX ["X"] (preload_cohort srcPatientX ["X"] {}).1 =
      ((preload_cohort srcPatientX ["X"] {}).1, 0) :=
  C3_preload_idempotent srcPatientX ["X"] {} (by decide)

/-! ## Load order of cached events (C7) -/

/-- C7 counterexample: the events returned by `load_patient_data` keep
the source-file row order, which here is strictly descending by date —
not ascending-sorted. -/
theorem C7_counterexample :
    (load_patient_data srcUnsortedEventsX "X" {}).events.map
        (fun ev => ev.event_date) = ["2025-05-01", "2024-01-01"] ∧
      parse_date "2025-05-01" = some ⟨2025, 5, 1⟩ ∧
      parse_date "2024-01-01" = some ⟨2024, 1, 1⟩ ∧
      pyDateLe ⟨2025, 5, 1⟩ ⟨2024, 1, 1⟩ = false := by
  decide

/-- C7 (amended): for a fresh engine, `load_patient_data` returns the
patient's clinical events (and encounters) exactly as filtered from the
source file, in file order — no sorting is performed by the data store;
evaluators that need recency order sort internally per call. -/
theorem C7_load_returns_file_order (src : Sources) (pid : String) :
    (load_patient_data src pid {}).events =
        src.events.filter (fun row => row.patient_id == pid) ∧
      (load_patient_data src pid {}).encounters =
        src.encounters.filter (fun row => row.patient_id == pid) := by
  have hcond : ¬(((({} : CacheState).cache_patients.lookup pid).isSome
      || pid ∈ ({} : CacheState).target_cohort : Prop)) := by
    simp [List.lookup]
  constructor
  · simp only [load_patient_data, ensure_loaded]
    rw [if_neg hcond]
    simpa using evFold_lookup pid src.events []
  · simp only [load_patient_data, ensure_loaded]
    rw [if_neg hcond]
    simpa using encFold_lookup pid src.encounters []

/-! ## Caching of unknown patient ids (C10) -/

/-- C10 counterexample: for an id absent from the patients source but
present in the encounters source, the first `load_patient_data` call
returns a non-empty encounter list, not the claimed empty lists. -/
theorem C10_counterexample :
    (load_patient_data srcEncountersOnlyX "X" {}).patient = none ∧
      (load_patient_data srcEncountersOnlyX "X" {}).encounters =
        [⟨"X", "2025-01-01"⟩] ∧
      (load_patient_data srcEncountersOnlyX "X" {}).encounters ≠ [] := by
  decide

/-- C10 (amended): for an id absent from the demographics source, the
first `load_patient_data` call on a fresh engine scans the three source
files, returns a null patient together with the id's rows from the
encounters and events sources (empty when the id occurs nowhere),
records the id in the target-cohort set, and every subsequent call
returns the same triple with no file scan and an unchanged state. -/
theorem C10_unknown_patient_cached (src : Sources) (pid : String)
    (habs : ∀ row ∈ src.patients, row.patient_id ≠ pid) :
    (load_patient_data src pid {}).scans = 3 ∧
      (load_patient_data src pid {}).patient = none ∧
      (load_patient_data src pid {}).encounters =
        src.encounters.filter (fun row => row.patient_id == pid) ∧
      (load_patient_data src pid {}).events =
        src.events.filter (fun row => row.patient_id == pid) ∧
      pid ∈ (load_patient_data src pid {}).state.target_cohort ∧
      load_patient_data src pid (load_patient_data src pid {}).state =
        { load_patient_data src pid {} with scans := 0 } := by
  have hfind : findPatientRow pid src.patients = none := findPatientRow_eq_none habs
  have hcond : ¬(((({} : CacheState).cache_patients.lookup pid).isSome
      || pid ∈ ({} : CacheState).target_cohort : Prop)) := by
    simp [List.lookup]
  have hens : ensure_loaded src pid {} =
      ({ cache_patients := ([] : List (String × PatientRow)),
         cache_encounters :=
          (src.encounters.foldl (fun acc row =>
            if row.patient_id = pid then assocAppend row.patient_id row acc else acc) []),
         cache_events :=
          (src.events.foldl (fun acc row =>
            if row.patient_id = pid then assocAppend row.patient_id row acc else acc) []),
         target_cohort := [pid] }, 3) := by
    simp only [ensure_loaded]
    rw [if_neg hcond, hfind]
    simp [cohortInsert]
  have hload : load_patient_data src pid {} =
      { state :=
          { cache_patients := ([] : List (String × PatientRow)),
            cache_encounters :=
              (src.encounters.foldl (fun acc row =>
                if row.patient_id = pid then assocAppend row.patient_id row acc else acc) []),
            cache_events :=
              (src.events.foldl (fun acc row =>
                if row.patient_id = pid then assocAppend row.patient_id row acc else acc) []),
            target_cohort := [pid] },
        scans := 3,
        patient := none,
        encounters := src.encounters.filter (fun row => row.patient_id == pid),
        events := src.events.filter (fun row => row.patient_id == pid) } := by
    simp only [load_patient_data]
    rw [hens]
    have he := encFold_lookup pid src.encounters []
    have hv := evFold_lookup pid src.events []
    simp only [List.lookup_nil, Option.getD_none, List.nil_append] at he hv
    simp [List.lookup, he, hv]
  refine ⟨by rw [hload], by rw [hload], by rw [hload], by rw [hload],
    by rw [hload]; exact List.mem_singleton.mpr rfl, ?_⟩
  rw [hload]
  have hens2 : ensure_loaded src pid
      ({ cache_patients := ([] : List (String × PatientRow)),
         cache_encounters :=
          (src.encounters.foldl (fun acc row =>
            if row.patient_id = pid then assocAppend row.patient_id row acc else acc) []),
         cache_events :=
          (src.events.foldl (fun acc row =>
            if row.patient_id = pid then assocAppend row.patient_id row acc else acc) []),
         target_cohort := [pid] } : CacheState) =
      ({ cache_patients := ([] : List (String × PatientRow)),
         cache_encounters :=
          (src.encounters.foldl (fun acc row =>
            if row.patient_id = pid then assocAppend row.patient_id row acc else acc) []),
         cache_events :=
          (src.events.foldl (fun acc row =>
            if row.patient_id = pid then assocAppend row.patient_id row acc else acc) []),
         target_cohort := [pid] }, 0) := by
    simp only [ensure_loaded]
    rw [if_pos]
    simp [List.lookup]
  simp only [load_patient_data]
  rw [hens2]
  have he := encFold_lookup pid src.encounters []
  have hv := evFold_lookup pid src.events []
  simp only [List.lookup_nil, Option.getD_none, List.nil_append] at he hv
  simp [List.lookup, he, hv]

/-- Witness for C10 at a concrete source set (id "X" absent from the
patients file, one encounter row). -/
theorem C10_witness :
    (load_patient_data srcEncountersOnlyX "X" {}).scans = 3 ∧
      (load_patient_data srcEncountersOnlyX "X" {}).patient = none ∧
      (load_patient_data srcEncountersOnlyX "X" {}).encounters =
        srcEncountersOnlyX.encounters.filter (fun row => row.patient_id == "X") ∧
      (load_patient_data srcEncountersOnlyX "X" {}).events =
        srcEncountersOnlyX.events.filter (fun row => row.patient_id == "X") ∧
      "X" ∈ (load_patient_data srcEncountersOnlyX "X" {}).state.target_cohort ∧
      load_patient_data srcEncountersOnlyX "X"
          (load_patient_data srcEncountersOnlyX "X" {}).state =
        { load_patient_data srcEncountersOnlyX "X" {} with scans := 0 } :=
  C10_unknown_patient_cached srcEncountersOnlyX "X" (by decide)

/-! ## Initial-population field semantics and short-circuiting (C6) -/

theorem cms125_ip_field {idx : PyDate} {cm : Cms125Codes} {p : PatientRow}
    {encs : List EncounterRow} {evs : List EventRow} {r : MeasureResult}
    (h : evaluate_cms125 idx cm (some p) encs evs = .ok r) :
    r.initial_population = true ↔
      p.sex = "F" ∧ ∃ dob, parse_date p.dob = some dob ∧
        52 ≤ calculate_age dob idx ∧ calculate_age dob idx ≤ 74 := by
  simp only [evaluate_cms125] at h
  split at h
  · rename_i hsex
    injection h with h
    subst h
    simp [hsex]
  · rename_i hsex
    have hsexF : p.sex = "F" := not_not.mp hsex
    split at h
    · exact absurd h (by simp)
    · rename_i dob hp
      split at h
      · exact absurd h (by simp)
      · rename_i hasEnc he
        repeat' split at h
        all_goals first
          | (injection h with h; subst h;
             simp [hsexF, hp, Bool.and_eq_true, decide_eq_true_eq])
          | injection h

theorem cms130_ip_field {idx : PyDate} {cm : Cms130Codes} {p : PatientRow}
    {encs : List EncounterRow} {evs : List EventRow} {r : MeasureResult}
    (h : evaluate_cms130 idx cm (some p) encs evs = .ok r) :
    r.initial_population = true ↔
      ∃ dob, parse_date p.dob = some dob ∧
        45 ≤ calculate_age dob idx ∧ calculate_age dob idx ≤ 75 := by
  simp only [evaluate_cms130] at h
  split at h
  · exact absurd h (by simp)
  · rename_i dob hp
    split at h
    · exact absurd h (by simp)
    · rename_i hasEnc he
      repeat' split at h
      all_goals first
        | (injection h with h; subst h;
           simp [hp, Bool.and_eq_true, decide_eq_true_eq])
        | injection h

theorem cms165_no_htn {idx : PyDate} {cm : Cms165Codes} {p : PatientRow}
    {encs : List EncounterRow} {evs : List EventRow} {r : MeasureResult}
    {fl : Cms165Flags} (h : evaluate_cms165 idx cm (some p) encs evs = .ok r)
    (hfl : cms165FlagScan idx cm evs {} = .ok fl) (hhtn : fl.htn = false) :
    r.initial_population = false := by
  simp only [evaluate_cms165] at h
  split at h
  · exact absurd h (by simp)
  · rename_i dob hp
    split at h
    · exact absurd h (by simp)
    · rename_i hasEnc he
      split at h
      · injection h with h
        subst h
        rfl
      · split at h
        · rename_i e heq
          rw [hfl] at heq
          exact absurd heq (by simp)
        · rename_i fl' heq
          rw [hfl] at heq
          injection heq with heq
          subst heq
          split at h
          · injection h with h
            subst h
            rfl
          · rename_i hcond
            rw [hhtn] at hcond
            simp at hcond

theorem cms122_no_diab {idx : PyDate} {cm : Cms122Codes} {p : PatientRow}
    {encs : List EncounterRow} {evs : List EventRow} {r : MeasureResult}
    {dob : PyDate} (h : evaluate_cms122 idx cm (some p) encs evs = .ok r)
    (hp : parse_date p.dob = some dob)
    (hage : (decide (18 ≤ calculate_age dob idx)
      && decide (calculate_age dob idx ≤ 75)) = true)
    (he : anyEncounterInYear idx.year encs = .ok true)
    (hds : cms122DiabScan idx.year cm evs false = .ok false) :
    r = { initial_population := false } := by
  simp only [evaluate_cms122] at h
  split at h
  · rename_i heq
    rw [hp] at heq
    exact absurd heq (by simp)
  · rename_i dob' hp'
    rw [hp] at hp'
    injection hp' with hp'
    subst hp'
    split at h
    · rename_i e heq
      rw [he] at heq
      exact absurd heq (by simp)
    · rename_i hasEnc heq
      rw [he] at heq
      injection heq with heq
      subst heq
      split at h
      · rename_i hcond
        rw [hage] at hcond
        simp at hcond
      · split at h
        · rename_i e heq
          rw [hds] at heq
          exact absurd heq (by simp)
        · rename_i hasDiab heq
          rw [hds] at heq
          injection heq with heq
          subst heq
          split at h
          · injection h with h
            subst h
            rfl
          · rename_i hcond
            simp at hcond

theorem cms125_early_eq {idx : PyDate} {cm : Cms125Codes} {p : PatientRow}
    {encs : List EncounterRow} {dob : PyDate} {hasEnc : Bool}
    (hsex : p.sex = "F") (hp : parse_date p.dob = some dob)
    (he : anyEncounterInYear idx.year encs = .ok hasEnc)
    (hc : (decide (52 ≤ calculate_age dob idx)
        && decide (calculate_age dob idx ≤ 74)) = false ∨ hasEnc = false) :
    ∀ evs, evaluate_cms125 idx cm (some p) encs evs =
      .ok { initial_population := decide (52 ≤ calculate_age dob idx)
        && decide (calculate_age dob idx ≤ 74) } := by
  intro evs
  have hcond : (!(decide (52 ≤ calculate_age dob idx)
      && decide (calculate_age dob idx ≤ 74)) || !hasEnc) = true := by
    rcases hc with hc | hc <;> rw [hc] <;> simp
  simp only [evaluate_cms125]
  rw [if_neg (show ¬p.sex ≠ "F" from not_not.mpr hsex), hp, he]
  simp only []
  rw [if_pos hcond]

theorem cms130_early_eq {idx : PyDate} {cm : Cms130Codes} {p : PatientRow}
    {encs : List EncounterRow} {dob : PyDate} {hasEnc : Bool}
    (hp : parse_date p.dob = some dob)
    (he : anyEncounterInYear idx.year encs = .ok hasEnc)
    (hc : (decide (45 ≤ calculate_age dob idx)
        && decide (calculate_age dob idx ≤ 75)) = false ∨ hasEnc = false) :
    ∀ evs, evaluate_cms130 idx cm (some p) encs evs =
      .ok { initial_population := decide (45 ≤ calculate_age dob idx)
        && decide (calculate_age dob idx ≤ 75) } := by
  intro evs
  have hcond : (!(decide (45 ≤ calculate_age dob idx)
      && decide (calculate_age dob idx ≤ 75)) || !hasEnc) = true := by
    rcases hc with hc | hc <;> rw [hc] <;> simp
  simp only [evaluate_cms130]
  rw [hp, he]
  simp only []
  rw [if_pos hcond]

theorem cms165_early_eq {idx : PyDate} {cm : Cms165Codes} {p : PatientRow}
    {encs : List EncounterRow} {dob : PyDate} {hasEnc : Bool}
    (hp : parse_date p.dob = some dob)
    (he : anyEncounterInYear idx.year encs = .ok hasEnc)
    (hc : (decide (18 ≤ calculate_age dob idx)
        && decide (calculate_age dob idx ≤ 85)) = false ∨ hasEnc = false) :
    ∀ evs, evaluate_cms165 idx cm (some p) encs evs =
      .ok { initial_population := false,
            debug_reason := some ("Failed IP: age_pass="
              ++ pyBool (decide (18 ≤ calculate_age dob idx)
                && decide (calculate_age dob idx ≤ 85))
              ++ ", has_encounter=" ++ pyBool hasEnc) } := by
  intro evs
  have hcond : (!(decide (18 ≤ calculate_age dob idx)
      && decide (calculate_age dob idx ≤ 85)) || !hasEnc) = true := by
    rcases hc with hc | hc <;> rw [hc] <;> simp
  simp only [evaluate_cms165]
  rw [hp, he]
  simp only []
  rw [if_pos hcond]

theorem cms122_early_eq {idx : PyDate} {cm : Cms122Codes} {p : PatientRow}
    {encs : List EncounterRow} {dob : PyDate} {hasEnc : Bool}
    (hp : parse_date p.dob = some dob)
    (he : anyEncounterInYear idx.year encs = .ok hasEnc)
    (hc : (decide (18 ≤ calculate_age dob idx)
        && decide (calculate_age dob idx ≤ 75)) = false ∨ hasEnc = false) :
    ∀ evs, evaluate_cms122 idx cm (some p) encs evs =
      .ok { initial_population := decide (18 ≤ calculate_age dob idx)
        && decide (calculate_age dob idx ≤ 75) } := by
  intro evs
  have hcond : (!(decide (18 ≤ calculate_age dob idx)
      && decide (calculate_age dob idx ≤ 75)) || !hasEnc) = true := by
    rcases hc with hc | hc <;> rw [hc] <;> simp
  simp only [evaluate_cms122]
  rw [hp, he]
  simp only []
  rw [if_pos hcond]

/-- C6 counterexample: a 55-year-old female with no encounters at all
gets `initial_population = true` from `evaluate_cms125`, so the returned
field is not "age AND sex AND encounter-in-year". -/
theorem C6_counterexample :
    evaluate_cms125 ⟨2025, 12, 31⟩ ⟨[], [], [], [], [], []⟩
        (some ⟨"p", "1970-01-01", "F"⟩) [] [] =
      .ok { initial_population := true } ∧
      anyEncounterInYear 2025 [] = .ok false :=
  ⟨rfl, rfl⟩

/-- C6 (amended): the `initial_population` field records the age/sex
screen, not the encounter test: for CMS125 it is true iff the sex is F
and the age lies in 52-74 (CMS130: 45-75, no sex constraint); CMS165
forces it to false when no qualifying hypertension diagnosis was
flagged, and CMS122 returns exactly `{initial_population := false}` when
the population stage passed but the diabetes scan found nothing.  When
the age test fails or no encounter falls in the index year, every
evaluator returns denominator = false and numerator = false with a
result that is independent of the events list (no event scanning). -/
theorem C6_initial_population_semantics :
    (∀ (idx : PyDate) (cm : Cms125Codes) (p : PatientRow) (encs : List EncounterRow)
        (evs : List EventRow) (r : MeasureResult),
      evaluate_cms125 idx cm (some p) encs evs = .ok r →
        (r.initial_population = true ↔ p.sex = "F" ∧ ∃ dob, parse_date p.dob = some dob ∧
          52 ≤ calculate_age dob idx ∧ calculate_age dob idx ≤ 74)) ∧
    (∀ (idx : PyDate) (cm : Cms130Codes) (p : PatientRow) (encs : List EncounterRow)
        (evs : List EventRow) (r : MeasureResult),
      evaluate_cms130 idx cm (some p) encs evs = .ok r →
        (r.initial_population = true ↔ ∃ dob, parse_date p.dob = some dob ∧
          45 ≤ calculate_age dob idx ∧ calculate_age dob idx ≤ 75)) ∧
    (∀ (idx : PyDate) (cm : Cms165Codes) (p : PatientRow) (encs : List EncounterRow)
        (evs : List EventRow) (r : MeasureResult) (fl : Cms165Flags),
      evaluate_cms165 idx cm (some p) encs evs = .ok r →
        cms165FlagScan idx cm evs {} = .ok fl → fl.htn = false →
        r.initial_population = false) ∧
    (∀ (idx : PyDate) (cm : Cms122Codes) (p : PatientRow) (encs : List EncounterRow)
        (evs : List EventRow) (r : MeasureResult) (dob : PyDate),
      evaluate_cms122 idx cm (some p) encs evs = .ok r →
        parse_date p.dob = some dob →
        (decide (18 ≤ calculate_age dob idx)
          && decide (calculate_age dob idx ≤ 75)) = true →
        anyEncounterInYear idx.year encs = .ok true →
        cms122DiabScan idx.year cm evs false = .ok false →
        r = { initial_population := false }) ∧
    (∀ (idx : PyDate) (cm : Cms125Codes) (p : PatientRow) (encs : List EncounterRow)
        (dob : PyDate) (hasEnc : Bool),
      p.sex = "F" → parse_date p.dob = some dob →
        anyEncounterInYear idx.year encs = .ok hasEnc →
        ((decide (52 ≤ calculate_age dob idx)
          && decide (calculate_age dob idx ≤ 74)) = false ∨ hasEnc = false) →
        ∀ evs, evaluate_cms125 idx cm (some p) encs evs =
          .ok { initial_population := decide (52 ≤ calculate_age dob idx)
            && decide (calculate_age dob idx ≤ 74) }) ∧
    (∀ (idx : PyDate) (cm : Cms130Codes) (p : PatientRow) (encs : List EncounterRow)
        (dob : PyDate) (hasEnc : Bool),
      parse_date p.dob = some dob →
        anyEncounterInYear idx.year encs = .ok hasEnc →
        ((decide (45 ≤ calculate_age dob idx)
          && decide (calculate_age dob idx ≤ 75)) = false ∨ hasEnc = false) →
        ∀ evs, evaluate_cms130 idx cm (some p) encs evs =
          .ok { initial_population := decide (45 ≤ calculate_age dob idx)
            && decide (calculate_age dob idx ≤ 75) }) ∧
    (∀ (idx : PyDate) (cm : Cms165Codes) (p : PatientRow) (encs : List EncounterRow)
        (dob : PyDate) (hasEnc : Bool),
      parse_date p.dob = some dob →
        anyEncounterInYear idx.year encs = .ok hasEnc →
        ((decide (18 ≤ calculate_age dob idx)
          && decide (calculate_age dob idx ≤ 85)) = false ∨ hasEnc = false) →
        ∀ evs, evaluate_cms165 idx cm (some p) encs evs =
          .ok { initial_population := false,
                debug_reason := some ("Failed IP: age_pass="
                  ++ pyBool (decide (18 ≤ calculate_age dob idx)
                    && decide (calculate_age dob idx ≤ 85))
                  ++ ", has_encounter=" ++ pyBool hasEnc) }) ∧
    (∀ (idx : PyDate) (cm : Cms122Codes) (p : PatientRow) (encs : List EncounterRow)
        (dob : PyDate) (hasEnc : Bool),
      parse_date p.dob = some dob →
        anyEncounterInYear idx.year encs = .ok hasEnc →
        ((decide (18 ≤ calculate_age dob idx)
          && decide (calculate_age dob idx ≤ 75)) = false ∨ hasEnc = false) →
        ∀ evs, evaluate_cms122 idx cm (some p) encs evs =
          .ok { initial_population := decide (18 ≤ calculate_age dob idx)
            && decide (calculate_age dob idx ≤ 75) }) :=
  ⟨fun _ _ _ _ _ _ h => cms125_ip_field h,
   fun _ _ _ _ _ _ h => cms130_ip_field h,
   fun _ _ _ _ _ _ _ h hfl hhtn => cms165_no_htn h hfl hhtn,
   fun _ _ _ _ _ _ _ h hp hage he hds => cms122_no_diab h hp hage he hds,
   fun _ _ _ _ _ _ hsex hp he hc => cms125_early_eq hsex hp he hc,
   fun _ _ _ _ _ _ hp he hc => cms130_early_eq hp he hc,
   fun _ _ _ _ _ _ hp he hc => cms165_early_eq hp he hc,
   fun _ _ _ _ _ _ hp he hc => cms122_early_eq hp he hc⟩

/-- Witness for C6: with no encounters, CMS125 returns the age-band
initial-population flag and an events-independent result, even for an
events list holding a malformed row. -/
theorem C6_witness :
    evaluate_cms125 ⟨2025, 12, 31⟩ ⟨[], [], [], [], [], []⟩
        (some ⟨"p", "1970-01-01", "F"⟩) [] [⟨"p", "oops", "x", none⟩] =
      .ok { initial_population := decide (52 ≤ calculate_age ⟨1970, 1, 1⟩ ⟨2025, 12, 31⟩)
        && decide (calculate_age ⟨1970, 1, 1⟩ ⟨2025, 12, 31⟩ ≤ 74) } :=
  C6_initial_population_semantics.2.2.2.2.1 ⟨2025, 12, 31⟩ ⟨[], [], [], [], [], []⟩
    ⟨"p", "1970-01-01", "F"⟩ [] ⟨1970, 1, 1⟩ false rfl rfl rfl (Or.inr rfl)
    [⟨"p", "oops", "x", none⟩]

/-! ## Facade not-found and unknown-measure semantics (C8) -/

theorem load_unknown_patient_none {src : Sources} {pid : String}
    (habs : ∀ row ∈ src.patients, row.patient_id ≠ pid) :
    (load_patient_data src pid {}).patient = none := by
  have hfind := findPatientRow_eq_none habs
  have hcond : ¬(((({} : CacheState).cache_patients.lookup pid).isSome
      || pid ∈ ({} : CacheState).target_cohort : Prop)) := by
    simp [List.lookup]
  simp only [load_patient_data, ensure_loaded]
  rw [if_neg hcond, hfind]
  simp [List.lookup]

theorem evaluate_all_not_found {src : Sources} {cm : AllCodes} {idx : PyDate}
    {pid : String} (habs : ∀ row ∈ src.patients, row.patient_id ≠ pid) :
    evaluate_all src cm idx pid {} =
      ((load_patient_data src pid {}).state, .ok .notFound) := by
  have hpat := load_unknown_patient_none habs
  simp only [evaluate_all]
  rw [hpat]

theorem evaluate_patient_unknown_measure {src : Sources} {cm : AllCodes}
    {idx : PyDate} {pid mid : String} {st st' : CacheState} {res : EvalAllResult}
    (hEA : evaluate_all src cm idx pid st = (st', Except.ok res))
    (h125 : mid ≠ "CMS125") (h130 : mid ≠ "CMS130")
    (h165 : mid ≠ "CMS165") (h122 : mid ≠ "CMS122") :
    (evaluate_patient src cm idx pid mid st).2 = .ok (false, false, none) := by
  simp only [evaluate_patient]
  rw [hEA]
  cases res with
  | notFound => rfl
  | results a b c d =>
    simp only []
    rw [if_neg h125, if_neg h130, if_neg h165, if_neg h122]

/-- C8 counterexample: for a known patient whose events hold an
unparseable date, `evaluate_patient` with an unknown measure id yields
the propagated `ValueError`, not `(false, false, null)` — `evaluate_all`
runs every evaluator before the measure-id check. -/
theorem C8_counterexample :
    (evaluate_patient srcMalformedEvent emptyAllCodes ⟨2025, 12, 31⟩
        "p" "BOGUS" {}).2 = .error "ValueError" := rfl

/-- C8 (amended): for an id absent from the demographics source,
`load_patient_data` returns a null patient, `evaluate_all` the explicit
not-found marker and `evaluate_patient` `(false, false, null)` for every
measure id, raising nothing; for an unknown measure id,
`evaluate_patient` returns `(false, false, null)` provided evaluating
the patient's four measures succeeded (a malformed date instead makes
the error propagate, as the counterexample shows). -/
theorem C8_not_found_and_unknown_measure :
    (∀ (src : Sources) (cm : AllCodes) (idx : PyDate) (pid : String),
      (∀ row ∈ src.patients, row.patient_id ≠ pid) →
        (load_patient_data src pid {}).patient = none ∧
        (evaluate_all src cm idx pid {}).2 = .ok .notFound ∧
        ∀ mid, (evaluate_patient src cm idx pid mid {}).2 =
          .ok (false, false, none)) ∧
    (∀ (src : Sources) (cm : AllCodes) (idx : PyDate) (pid mid : String)
        (st st' : CacheState) (res : EvalAllResult),
      evaluate_all src cm idx pid st = (st', .ok res) →
        mid ≠ "CMS125" → mid ≠ "CMS130" → mid ≠ "CMS165" → mid ≠ "CMS122" →
        (evaluate_patient src cm idx pid mid st).2 = .ok (false, false, none)) := by
  constructor
  · intro src cm idx pid habs
    have hEA : evaluate_all src cm idx pid {} =
        ((load_patient_data src pid {}).state, .ok .notFound) :=
      evaluate_all_not_found habs
    refine ⟨load_unknown_patient_none habs, by rw [hEA], ?_⟩
    intro mid
    simp only [evaluate_patient]
    rw [hEA]
  · intro src cm idx pid mid st st' res hEA h125 h130 h165 h122
    exact evaluate_patient_unknown_measure hEA h125 h130 h165 h122

/-- Witness for C8 with an empty demographics source. -/
theorem C8_witness :
    (load_patient_data ⟨[], [], []⟩ "nobody" {}).patient = none ∧
      (evaluate_all ⟨[], [], []⟩ emptyAllCodes ⟨2025, 12, 31⟩ "nobody" {}).2 =
        .ok .notFound ∧
      (evaluate_patient ⟨[], [], []⟩ emptyAllCodes ⟨2025, 12, 31⟩ "nobody"
          "CMS125" {}).2 = .ok (false, false, none) := by
  have H := C8_not_found_and_unknown_measure.1 ⟨[], [], []⟩ emptyAllCodes
    ⟨2025, 12, 31⟩ "nobody" (by simp)
  exact ⟨H.1, H.2.1, H.2.2 "CMS125"⟩

/-! ## Malformed-row handling (C9) -/

theorem cms125ExclFlags_raise {idxYear : Nat} {cm : Cms125Codes} {ev : EventRow}
    {rest : List EventRow} {b l r : Bool} (hp : parse_date ev.event_date = none) :
    cms125ExclFlags idxYear cm (ev :: rest) b l r = .error "ValueError" := by
  simp only [cms125ExclFlags]
  rw [hp]

theorem cms130ExclScan_raise {idxYear : Nat} {cm : Cms130Codes} {ev : EventRow}
    {rest : List EventRow} {excl : Bool} {reason : Option String}
    (hp : parse_date ev.event_date = none) :
    cms130ExclScan idxYear cm (ev :: rest) excl reason = .error "ValueError" := by
  simp only [cms130ExclScan]
  rw [hp]

theorem cms165FlagScan_raise {idx : PyDate} {cm : Cms165Codes} {ev : EventRow}
    {rest : List EventRow} {fl : Cms165Flags}
    (hp : parse_date ev.event_date = none) :
    cms165FlagScan idx cm (ev :: rest) fl = .error "ValueError" := by
  simp only [cms165FlagScan]
  rw [hp]

theorem cms122DiabScan_raise {idxYear : Nat} {cm : Cms122Codes} {ev : EventRow}
    {rest : List EventRow} {hd : Bool} (hp : parse_date ev.event_date = none) :
    cms122DiabScan idxYear cm (ev :: rest) hd = .error "ValueError" := by
  simp only [cms122DiabScan]
  rw [hp]

theorem cms165Readings_skip_no_value {idxYear : Nat} {cm : Cms165Codes}
    {ev : EventRow} {rest : List EventRow} {acc : List (String × BpReads)}
    {d : PyDate} (hp : parse_date ev.event_date = some d)
    (hv : ev.value_num = none) :
    cms165Readings idxYear cm (ev :: rest) acc = cms165Readings idxYear cm rest acc := by
  simp only [cms165Readings]
  rw [hp, hv]
  simp only []
  exact ite_self _

theorem cms122_no_value_numerator_false {idx : PyDate} {cm : Cms122Codes}
    {patient : Option PatientRow} {encs : List EncounterRow} {events : List EventRow}
    {r : MeasureResult} {latest : EventRow}
    (h : evaluate_cms122 idx cm patient encs events = .ok r)
    (hev : r.evidence = some latest) (hval : latest.value_num = none) :
    r.numerator = false := by
  rcases patient with _ | p <;> simp only [evaluate_cms122] at h
  · injection h with h
    subst h
    exact absurd hev (by simp)
  · repeat' split at h
    all_goals first
      | (injection h with h; subst h; simp_all)
      | injection h

theorem evaluate_cms125_raise {idx : PyDate} {cm : Cms125Codes} {p : PatientRow}
    {encs : List EncounterRow} {dob : PyDate} {ev : EventRow} {rest : List EventRow}
    (hsex : p.sex = "F") (hp : parse_date p.dob = some dob)
    (he : anyEncounterInYear idx.year encs = .ok true)
    (hage : (decide (52 ≤ calculate_age dob idx)
      && decide (calculate_age dob idx ≤ 74)) = true)
    (hbad : parse_date ev.event_date = none) :
    evaluate_cms125 idx cm (some p) encs (ev :: rest) = .error "ValueError" := by
  have hcond : ¬((!(decide (52 ≤ calculate_age dob idx)
      && decide (calculate_age dob idx ≤ 74)) || !true) = true) := by
    rw [hage]
    simp
  simp only [evaluate_cms125]
  rw [if_neg (show ¬p.sex ≠ "F" from not_not.mpr hsex), hp, he]
  simp only []
  rw [if_neg hcond, cms125ExclFlags_raise hbad]

/-- C9 counterexample: an event row with an unparseable date makes
`evaluate_cms125` raise (`ValueError` propagates to the caller); the
row is not skipped. -/
theorem C9_counterexample :
    parse_date "not-a-date" = none ∧
      evaluate_cms125 ⟨2025, 12, 31⟩ ⟨[], [], [], [], [], ["77067"]⟩
        (some ⟨"p", "1970-01-01", "F"⟩) [⟨"p", "2025-06-01"⟩]
        [⟨"p", "not-a-date", "77067", none⟩] = .error "ValueError" :=
  ⟨rfl, rfl⟩

/-- C9 (amended): only malformed numeric values are skipped silently —
the CMS165 reading loop drops such a row and continues, and CMS122
leaves the numerator false when the latest test has no parseable value —
while an unparseable date string raises: every event scan errors at such
a row and the `ValueError` propagates out of the evaluator. -/
theorem C9_malformed_row_semantics :
    (∀ (idxYear : Nat) (cm : Cms165Codes) (ev : EventRow) (rest : List EventRow)
        (acc : List (String × BpReads)) (d : PyDate),
      parse_date ev.event_date = some d → ev.value_num = none →
        cms165Readings idxYear cm (ev :: rest) acc =
          cms165Readings idxYear cm rest acc) ∧
    (∀ (idx : PyDate) (cm : Cms122Codes) (patient : Option PatientRow)
        (encs : List EncounterRow) (events : List EventRow) (r : MeasureResult)
        (latest : EventRow),
      evaluate_cms122 idx cm patient encs events = .ok r →
        r.evidence = some latest → latest.value_num = none →
        r.numerator = false) ∧
    (∀ (idxYear : Nat) (cm : Cms125Codes) (ev : EventRow) (rest : List EventRow)
        (b l r : Bool),
      parse_date ev.event_date = none →
        cms125ExclFlags idxYear cm (ev :: rest) b l r = .error "ValueError") ∧
    (∀ (idxYear : Nat) (cm : Cms130Codes) (ev : EventRow) (rest : List EventRow)
        (excl : Bool) (reason : Option String),
      parse_date ev.event_date = none →
        cms130ExclScan idxYear cm (ev :: rest) excl reason = .error "ValueError") ∧
    (∀ (idx : PyDate) (cm : Cms165Codes) (ev : EventRow) (rest : List EventRow)
        (fl : Cms165Flags),
      parse_date ev.event_date = none →
        cms165FlagScan idx cm (ev :: rest) fl = .error "ValueError") ∧
    (∀ (idxYear : Nat) (cm : Cms122Codes) (ev : EventRow) (rest : List EventRow)
        (hd : Bool),
      parse_date ev.event_date = none →
        cms122DiabScan idxYear cm (ev :: rest) hd = .error "ValueError") ∧
    (∀ (idx : PyDate) (cm : Cms125Codes) (p : PatientRow) (encs : List EncounterRow)
        (dob : PyDate) (ev : EventRow) (rest : List EventRow),
      p.sex = "F" → parse_date p.dob = some dob →
        anyEncounterInYear idx.year encs = .ok true →
        (decide (52 ≤ calculate_age dob idx)
          && decide (calculate_age dob idx ≤ 74)) = true →
        parse_date ev.event_date = none →
        evaluate_cms125 idx cm (some p) encs (ev :: rest) = .error "ValueError") :=
  ⟨fun _ _ _ _ _ _ hp hv => cms165Readings_skip_no_value hp hv,
   fun _ _ _ _ _ _ _ h hev hval => cms122_no_value_numerator_false h hev hval,
   fun _ _ _ _ _ _ _ hp => cms125ExclFlags_raise hp,
   fun _ _ _ _ _ _ hp => cms130ExclScan_raise hp,
   fun _ _ _ _ _ hp => cms165FlagScan_raise hp,
   fun _ _ _ _ _ hp => cms122DiabScan_raise hp,
   fun _ _ _ _ _ _ _ hsex hp he hage hbad =>
     evaluate_cms125_raise hsex hp he hage hbad⟩

/-- Witness for C9: a concrete valueless reading row is skipped by the
CMS165 scan, and a concrete unparseable event date makes CMS125 raise. -/
theorem C9_witness :
    cms165Readings 2025 ⟨["I10"], [], [], [], [], [], [], [], [], ["8480-6"], ["8462-4"]⟩
        [⟨"p", "2025-01-01", "8480-6", none⟩] [] =
      cms165Readings 2025 ⟨["I10"], [], [], [], [], [], [], [], [], ["8480-6"], ["8462-4"]⟩
        [] [] ∧
      evaluate_cms125 ⟨2025, 12, 31⟩ ⟨[], [], [], [], [], []⟩
        (some ⟨"q", "1970-01-01", "F"⟩) [⟨"q", "2025-06-01"⟩]
        [⟨"q", "bad-date", "77067", none⟩] = .error "ValueError" :=
  ⟨C9_malformed_row_semantics.1 2025
      ⟨["I10"], [], [], [], [], [], [], [], [], ["8480-6"], ["8462-4"]⟩
      ⟨"p", "2025-01-01", "8480-6", none⟩ [] [] ⟨2025, 1, 1⟩ rfl rfl,
   C9_malformed_row_semantics.2.2.2.2.2.2 ⟨2025, 12, 31⟩ ⟨[], [], [], [], [], []⟩
      ⟨"q", "1970-01-01", "F"⟩ [⟨"q", "2025-06-01"⟩] ⟨1970, 1, 1⟩
      ⟨"q", "bad-date", "77067", none⟩ [] rfl rfl rfl rfl rfl⟩

/-! ## CMS165 readings dictionary lemmas (C4) -/

theorem lookup_bpUpdate_self (k : String) (f : BpReads → BpReads)
    (acc : List (String × BpReads)) :
    (bpUpdate k f acc).lookup k = some (f ((acc.lookup k).getD {})) := by
  induction acc with
  | nil => simp [bpUpdate, List.lookup]
  | cons kv rest ih =>
    obtain ⟨k', e⟩ := kv
    simp only [bpUpdate]
    split
    · rename_i he
      subst he
      simp [List.lookup]
    · rename_i hne
      have hb : (k == k') = false := beq_eq_false_iff_ne.mpr fun he => hne he.symm
      simp [List.lookup, hb, ih]

theorem lookup_bpUpdate_other {k k' : String} (h : k' ≠ k) (f : BpReads → BpReads)
    (acc : List (String × BpReads)) :
    (bpUpdate k f acc).lookup k' = acc.lookup k' := by
  induction acc with
  | nil => simp [bpUpdate, List.lookup, beq_eq_false_iff_ne.mpr h]
  | cons kv rest ih =>
    obtain ⟨k0, e⟩ := kv
    simp only [bpUpdate]
    split
    · rename_i he
      subst he
      simp [List.lookup, beq_eq_false_iff_ne.mpr h]
    · simp only [List.lookup, ih]

theorem keys_bpUpdate (k : String) (f : BpReads → BpReads)
    (acc : List (String × BpReads)) :
    (bpUpdate k f acc).map (fun kr => kr.1) =
      if k ∈ acc.map (fun kr => kr.1) then acc.map (fun kr => kr.1)
      else acc.map (fun kr => kr.1) ++ [k] := by
  induction acc with
  | nil => simp [bpUpdate]
  | cons kv rest ih =>
    obtain ⟨k', e⟩ := kv
    simp only [bpUpdate]
    split
    · rename_i he
      subst he
      simp
    · rename_i hne
      have hne' : ¬(k = k') := fun he => hne he.symm
      simp only [List.map_cons, ih]
      by_cases hk : k ∈ rest.map (fun kr => kr.1)
      · rw [if_pos hk, if_pos (by simp [hk])]
      · rw [if_neg hk, if_neg (by simp [hk, hne'])]
        simp

theorem nodup_keys_bpUpdate {k : String} {f : BpReads → BpReads}
    {acc : List (String × BpReads)}
    (h : (acc.map (fun kr => kr.1)).Nodup) :
    ((bpUpdate k f acc).map (fun kr => kr.1)).Nodup := by
  rw [keys_bpUpdate]
  split
  · exact h
  · rename_i hk
    simp [List.nodup_append, h, hk]

theorem cms165Readings_nodup_keys {idxYear : Nat} {cm : Cms165Codes}
    {events : List EventRow} {acc acc' : List (String × BpReads)}
    (h : cms165Readings idxYear cm events acc = .ok acc')
    (hnd : (acc.map (fun kr => kr.1)).Nodup) :
    (acc'.map (fun kr => kr.1)).Nodup := by
  induction events generalizing acc with
  | nil =>
    simp only [cms165Readings] at h
    injection h with h
    subst h
    exact hnd
  | cons ev rest ih =>
    simp only [cms165Readings] at h
    split at h
    · exact absurd h (by simp)
    · split at h
      · split at h
        · split at h
          · exact ih h (nodup_keys_bpUpdate hnd)
          · split at h
            · exact ih h (nodup_keys_bpUpdate hnd)
            · exact ih h hnd
        · exact ih h hnd
      · exact ih h hnd

theorem lookup_of_mem_nodup {β : Type} {l : List (String × β)}
    (hnd : (l.map (fun kr => kr.1)).Nodup) {k : String} {e : β}
    (hmem : (k, e) ∈ l) : l.lookup k = some e := by
  induction l with
  | nil => exact absurd hmem (by simp)
  | cons kv rest ih =>
    obtain ⟨k', e'⟩ := kv
    rcases List.mem_cons.1 hmem with he | hmem'
    · injection he with h1 h2
      subst h1
      subst h2
      simp [List.lookup]
    · simp only [List.map_cons, List.nodup_cons] at hnd
      have hne : (k == k') = false := by
        apply beq_eq_false_iff_ne.mpr
        intro hkk
        subst hkk
        exact hnd.1 (by
          have : k = (k, e).1 := rfl
          exact List.mem_map.mpr ⟨(k, e), hmem', rfl⟩)
      simp [List.lookup, hne]
      exact ih hnd.2 hmem'

theorem mem_of_lookup_eq_some {β : Type} {l : List (String × β)} {k : String} {e : β}
    (h : l.lookup k = some e) : (k, e) ∈ l := by
  induction l with
  | nil => simp [List.lookup] at h
  | cons kv rest ih =>
    obtain ⟨k', e'⟩ := kv
    rcases hb : (k == k') with _ | _
    · simp only [List.lookup, hb] at h
      exact List.mem_cons_of_mem _ (ih h)
    · simp only [List.lookup, hb] at h
      injection h with h
      subst h
      have := beq_iff_eq.mp hb
      subst this
      exact List.mem_cons_self _ _

theorem sysReadingsOn_cons_pos {idxYear : Nat} {cm : Cms165Codes} {ev : EventRow}
    {rest : List EventRow} {k : String} {d : PyDate} {v : ℚ}
    (hp : parse_date ev.event_date = some d) (hv : ev.value_num = some v)
    (hc : ev.event_date = k ∧ d.year = idxYear ∧ cm.systolic.contains ev.code = true) :
    sysReadingsOn idxYear cm (ev :: rest) k = (v, ev) :: sysReadingsOn idxYear cm rest k := by
  simp only [sysReadingsOn, List.filterMap_cons, hp, hv]
  rw [if_pos hc]

theorem sysReadingsOn_cons_neg {idxYear : Nat} {cm : Cms165Codes} {ev : EventRow}
    {rest : List EventRow} {k : String} {d : PyDate}
    (hp : parse_date ev.event_date = some d)
    (hcase : ev.value_num = none ∨ ∃ v, ev.value_num = some v ∧
      ¬(ev.event_date = k ∧ d.year = idxYear ∧ cm.systolic.contains ev.code = true)) :
    sysReadingsOn idxYear cm (ev :: rest) k = sysReadingsOn idxYear cm rest k := by
  rcases hcase with hv | ⟨v, hv, hc⟩
  · simp [sysReadingsOn, List.filterMap_cons, hp, hv]
  · simp only [sysReadingsOn, List.filterMap_cons, hp, hv]
    rw [if_neg hc]

theorem diaReadingsOn_cons_pos {idxYear : Nat} {cm : Cms165Codes} {ev : EventRow}
    {rest : List EventRow} {k : String} {d : PyDate} {v : ℚ}
    (hp : parse_date ev.event_date = some d) (hv : ev.value_num = some v)
    (hc : ev.event_date = k ∧ d.year = idxYear ∧ cm.systolic.contains ev.code = false
      ∧ cm.diastolic.contains ev.code = true) :
    diaReadingsOn idxYear cm (ev :: rest) k = (v, ev) :: diaReadingsOn idxYear cm rest k := by
  simp only [diaReadingsOn, List.filterMap_cons, hp, hv]
  rw [if_pos hc]

theorem diaReadingsOn_cons_neg {idxYear : Nat} {cm : Cms165Codes} {ev : EventRow}
    {rest : List EventRow} {k : String} {d : PyDate}
    (hp : parse_date ev.event_date = some d)
    (hcase : ev.value_num = none ∨ ∃ v, ev.value_num = some v ∧
      ¬(ev.event_date = k ∧ d.year = idxYear ∧ cm.systolic.contains ev.code = false
        ∧ cm.diastolic.contains ev.code = true)) :
    diaReadingsOn idxYear cm (ev :: rest) k = diaReadingsOn idxYear cm rest k := by
  rcases hcase with hv | ⟨v, hv, hc⟩
  · simp [diaReadingsOn, List.filterMap_cons, hp, hv]
  · simp only [diaReadingsOn, List.filterMap_cons, hp, hv]
    rw [if_neg hc]

/-- The readings dictionary built by `cms165Readings` groups, per date
key, exactly the systolic and diastolic readings described by the spec
lists `sysReadingsOn`/`diaReadingsOn`. -/
theorem cms165Readings_sys_dia {idxYear : Nat} {cm : Cms165Codes}
    {events : List EventRow} {acc acc' : List (String × BpReads)}
    (h : cms165Readings idxYear cm events acc = .ok acc') (k : String) :
    ((acc'.lookup k).getD {}).sys
        = ((acc.lookup k).getD {}).sys ++ sysReadingsOn idxYear cm events k ∧
      ((acc'.lookup k).getD {}).dia
        = ((acc.lookup k).getD {}).dia ++ diaReadingsOn idxYear cm events k := by
  induction events generalizing acc with
  | nil =>
    simp only [cms165Readings] at h
    injection h with h
    subst h
    simp [sysReadingsOn, diaReadingsOn]
  | cons ev rest ih =>
    simp only [cms165Readings] at h
    split at h
    · exact absurd h (by simp)
    · rename_i d hp
      split at h
      · rename_i hyear
        split at h
        · rename_i v hv
          split at h
          · rename_i hsys
            obtain ⟨ihs, ihd⟩ := ih h
            by_cases hk : ev.event_date = k
            · subst hk
              rw [lookup_bpUpdate_self] at ihs ihd
              simp only [Option.getD_some, addSysRead] at ihs ihd
              constructor
              · rw [ihs, sysReadingsOn_cons_pos hp hv ⟨rfl, hyear, hsys⟩]
                simp
              · rw [ihd, diaReadingsOn_cons_neg hp
                  (Or.inr ⟨v, hv, fun hc => Bool.false_ne_true (hc.2.2.1 ▸ hsys)⟩)]
            · rw [lookup_bpUpdate_other (fun he => hk he.symm)] at ihs ihd
              constructor
              · rw [ihs, sysReadingsOn_cons_neg hp (Or.inr ⟨v, hv, fun hc => hk hc.1⟩)]
              · rw [ihd, diaReadingsOn_cons_neg hp (Or.inr ⟨v, hv, fun hc => hk hc.1⟩)]
          · rename_i hsys
            have hsysf : cm.systolic.contains ev.code = false := by
              cases hb : cm.systolic.contains ev.code
              · rfl
              · exact absurd hb hsys
            split at h
            · rename_i hdia
              obtain ⟨ihs, ihd⟩ := ih h
              by_cases hk : ev.event_date = k
              · subst hk
                rw [lookup_bpUpdate_self] at ihs ihd
                simp only [Option.getD_some, addDiaRead] at ihs ihd
                constructor
                · rw [ihs, sysReadingsOn_cons_neg hp
                    (Or.inr ⟨v, hv, fun hc => Bool.false_ne_true (hsysf ▸ hc.2.2)⟩)]
                · rw [ihd, diaReadingsOn_cons_pos hp hv ⟨rfl, hyear, hsysf, hdia⟩]
                  simp
              · rw [lookup_bpUpdate_other (fun he => hk he.symm)] at ihs ihd
                constructor
                · rw [ihs, sysReadingsOn_cons_neg hp (Or.inr ⟨v, hv, fun hc => hk hc.1⟩)]
                · rw [ihd, diaReadingsOn_cons_neg hp (Or.inr ⟨v, hv, fun hc => hk hc.1⟩)]
            · rename_i hdia
              have hdiaf : cm.diastolic.contains ev.code = false := by
                cases hb : cm.diastolic.contains ev.code
                · rfl
                · exact absurd hb hdia
              obtain ⟨ihs, ihd⟩ := ih h
              constructor
              · rw [ihs, sysReadingsOn_cons_neg hp
                  (Or.inr ⟨v, hv, fun hc => Bool.false_ne_true (hsysf ▸ hc.2.2)⟩)]
              · rw [ihd, diaReadingsOn_cons_neg hp
                  (Or.inr ⟨v, hv, fun hc => Bool.false_ne_true (hdiaf ▸ hc.2.2.2)⟩)]
        · rename_i hv
          obtain ⟨ihs, ihd⟩ := ih h
          constructor
          · rw [ihs, sysReadingsOn_cons_neg hp (Or.inl hv)]
          · rw [ihd, diaReadingsOn_cons_neg hp (Or.inl hv)]
      · rename_i hyear
        obtain ⟨ihs, ihd⟩ := ih h
        have hside : ev.value_num = none ∨ ∃ v, ev.value_num = some v ∧
            ¬(ev.event_date = k ∧ d.year = idxYear
              ∧ cm.systolic.contains ev.code = true) := by
          rcases hv : ev.value_num with _ | v
          · exact Or.inl rfl
          · exact Or.inr ⟨v, rfl, fun hc => hyear hc.2.1⟩
        have hside2 : ev.value_num = none ∨ ∃ v, ev.value_num = some v ∧
            ¬(ev.event_date = k ∧ d.year = idxYear
              ∧ cm.systolic.contains ev.code = false
              ∧ cm.diastolic.contains ev.code = true) := by
          rcases hv : ev.value_num with _ | v
          · exact Or.inl rfl
          · exact Or.inr ⟨v, rfl, fun hc => hyear hc.2.1⟩
        constructor
        · rw [ihs, sysReadingsOn_cons_neg hp hside]
        · rw [ihd, diaReadingsOn_cons_neg hp hside2]

/-- Bridge between membership in the `valid_days` list of
`evaluate_cms165` and the spec predicate `bpValidDay`. -/
theorem cms165_validDay_mem {idxYear : Nat} {cm : Cms165Codes}
    {events : List EventRow} {acc' : List (String × BpReads)}
    (hscan : cms165Readings idxYear cm events [] = .ok acc') (k : String) :
    k ∈ (acc'.filter (fun kr => !kr.2.sys.isEmpty && !kr.2.dia.isEmpty)).map (·.1) ↔
      bpValidDay idxYear cm events k = true := by
  have hnd := cms165Readings_nodup_keys hscan (by simp)
  have hgrp := cms165Readings_sys_dia hscan k
  simp only [List.lookup_nil, Option.getD_none, List.nil_append] at hgrp
  constructor
  · intro hmem
    obtain ⟨kr, hkr, hfst⟩ := List.mem_map.1 hmem
    obtain ⟨hkrmem, hP⟩ := List.mem_filter.1 hkr
    obtain ⟨kk, e⟩ := kr
    simp only at hfst
    subst hfst
    have hlk : acc'.lookup kk = some e := lookup_of_mem_nodup hnd hkrmem
    rw [hlk] at hgrp
    simp only [Option.getD_some] at hgrp
    simp only [bpValidDay]
    rw [← hgrp.1, ← hgrp.2]
    exact hP
  · intro hval
    rcases hlk : acc'.lookup k with _ | e
    · rw [hlk] at hgrp
      simp only [Option.getD_none] at hgrp
      simp only [bpValidDay] at hval
      rw [← hgrp.1, ← hgrp.2] at hval
      simp at hval
    · rw [hlk] at hgrp
      simp only [Option.getD_some] at hgrp
      have hmem' : (k, e) ∈ acc' := mem_of_lookup_eq_some hlk
      refine List.mem_map.2 ⟨(k, e), List.mem_filter.2 ⟨hmem', ?_⟩, rfl⟩
      simp only [bpValidDay] at hval
      rw [← hgrp.1, ← hgrp.2] at hval
      exact hval

/-- C4: for every patient in the CMS165 denominator: among date keys in
the measurement year carrying both a systolic and a diastolic reading
with a parseable numeric value, a most recent one (by parsed date) is
selected; the numerator is true iff the minimum systolic value of that
day is below 140 and the minimum diastolic value below 90; the evidence
is the event of a minimum systolic reading of that day; when no day has
both components, the numerator is false and no evidence is returned. -/
theorem C4_cms165_numerator (idx : PyDate) (cm : Cms165Codes)
    (patient : Option PatientRow) (encs : List EncounterRow)
    (events : List EventRow) (r : MeasureResult)
    (h : evaluate_cms165 idx cm patient encs events = .ok r)
    (hd : r.denominator = true) :
    ((∀ k, bpValidDay idx.year cm events k = false) →
      r.numerator = false ∧ r.evidence = none) ∧
    (∀ k0, bpValidDay idx.year cm events k0 = true →
      ∃ k, bpValidDay idx.year cm events k = true ∧
        (∀ k', bpValidDay idx.year cm events k' = true →
          pyDateLe ((parse_date k').getD ⟨0, 0, 0⟩)
            ((parse_date k).getD ⟨0, 0, 0⟩) = true) ∧
        r.numerator =
          (decide (minQ ((sysReadingsOn idx.year cm events k).map (·.1)) < 140)
            && decide (minQ ((diaReadingsOn idx.year cm events k).map (·.1)) < 90)) ∧
        ∃ pr ∈ sysReadingsOn idx.year cm events k,
          pr.1 = minQ ((sysReadingsOn idx.year cm events k).map (·.1)) ∧
          (∀ q ∈ sysReadingsOn idx.year cm events k, pr.1 ≤ q.1) ∧
          r.evidence = some pr.2) := by
  rcases patient with _ | p <;> simp only [evaluate_cms165] at h
  · injection h with h
    subst h
    exact absurd hd (by simp)
  · repeat' split at h
    all_goals try (exact Except.noConfusion h)
    all_goals try (injection h with h; subst h; simp at hd; done)
    all_goals try (rename_i hjunk x1 a1 h1 x2 h2; exact absurd rfl hjunk)
    all_goals try (rename_i hjunk x1 a1 h1 x2 m1 h2; exact absurd rfl hjunk)
    -- two goals survive: the no-valid-day and most-recent-day leaves
    · rename_i xa acc hacc xb hheadnil
      injection h with h
      subst h
      have hnil : sortLe strDescLe ((acc.filter
          (fun kr => !kr.2.sys.isEmpty && !kr.2.dia.isEmpty)).map (·.1)) = [] := by
        cases hs' : sortLe strDescLe ((acc.filter
            (fun kr => !kr.2.sys.isEmpty && !kr.2.dia.isEmpty)).map (·.1)) with
        | nil => rfl
        | cons a as => rw [hs'] at hheadnil; simp at hheadnil
      have hempty := (sortLe_eq_nil_iff strDescLe _).1 hnil
      constructor
      · intro _
        exact ⟨rfl, rfl⟩
      · intro k0 hk0
        have hm := (cms165_validDay_mem hacc k0).2 hk0
        rw [hempty] at hm
        exact absurd hm (by simp)
    · rename_i xa acc hacc xb mostRecent hhead
      injection h with h
      subst h
      obtain ⟨xs, hs⟩ : ∃ xs, sortLe strDescLe ((acc.filter
          (fun kr => !kr.2.sys.isEmpty && !kr.2.dia.isEmpty)).map (·.1))
          = mostRecent :: xs := by
        cases hs' : sortLe strDescLe ((acc.filter
            (fun kr => !kr.2.sys.isEmpty && !kr.2.dia.isEmpty)).map (·.1)) with
        | nil => rw [hs'] at hhead; simp at hhead
        | cons a as =>
          rw [hs'] at hhead
          simp only [List.head?_cons, Option.some.injEq] at hhead
          exact ⟨as, by rw [hhead]⟩
      obtain ⟨hmemMR, hmaxMR⟩ := head_sortLe strDescLe_trans strDescLe_total hs
      have hvalidMR := (cms165_validDay_mem hacc mostRecent).1 hmemMR
      have hgrp := cms165Readings_sys_dia hacc mostRecent
      simp only [List.lookup_nil, Option.getD_none, List.nil_append] at hgrp
      constructor
      · intro hnone
        rw [hnone mostRecent] at hvalidMR
        exact absurd hvalidMR (by simp)
      · intro k0 hk0
        have hsysne : sysReadingsOn idx.year cm events mostRecent ≠ [] := by
          simp only [bpValidDay, Bool.and_eq_true] at hvalidMR
          intro hnil2
          rw [hnil2] at hvalidMR
          simp at hvalidMR
        refine ⟨mostRecent, hvalidMR, ?_, ?_, ?_⟩
        · intro k' hk'
          exact hmaxMR k' ((cms165_validDay_mem hacc k').2 hk')
        · simp only []
          rw [hgrp.1, hgrp.2]
        · simp only []
          rw [hgrp.1]
          have hmapne : (sysReadingsOn idx.year cm events mostRecent).map
              (fun pr => pr.1) ≠ [] := by
            intro h0
            exact hsysne (List.map_eq_nil_iff.mp h0)
          have hminmem := minQ_mem hmapne
          obtain ⟨pr0, hpr0mem, hpr0eq⟩ := List.mem_map.1 hminmem
          have hfindsome : ((sysReadingsOn idx.year cm events mostRecent).find?
              (fun pr => pr.1 == minQ ((sysReadingsOn idx.year cm events
                mostRecent).map (·.1)))).isSome := by
            rw [List.find?_isSome]
            exact ⟨pr0, hpr0mem, beq_iff_eq.mpr hpr0eq⟩
          rcases hf : (sysReadingsOn idx.year cm events mostRecent).find?
              (fun pr => pr.1 == minQ ((sysReadingsOn idx.year cm events
                mostRecent).map (·.1))) with _ | pr'
          · rw [hf] at hfindsome
            simp at hfindsome
          · have hpr'mem := List.mem_of_find?_eq_some hf
            have hpr'eq : pr'.1 = minQ ((sysReadingsOn idx.year cm events
                mostRecent).map (·.1)) :=
              beq_iff_eq.mp (@List.find?_some (ℚ × EventRow)
                (fun pr => pr.1 == minQ ((sysReadingsOn idx.year cm events
                  mostRecent).map (·.1))) pr'
                (sysReadingsOn idx.year cm events mostRecent) hf)
            refine ⟨pr', hpr'mem, hpr'eq, ?_, ?_⟩
            · intro q hq
              rw [hpr'eq]
              exact minQ_le q.1 (List.mem_map.2 ⟨q, hq, rfl⟩)
            · rw [hf]
              rfl

/-- Witness for C4: a hypertensive patient in the denominator with no
blood-pressure readings at all has numerator false and no evidence. -/
theorem C4_witness :
    ({ initial_population := true, denominator := true } : MeasureResult).numerator = false ∧
      ({ initial_population := true, denominator := true } : MeasureResult).evidence = none :=
  (C4_cms165_numerator ⟨2025, 12, 31⟩
    ⟨["I10"], [], [], [], [], [], [], [], [], ["8480-6"], ["8462-4"]⟩
    (some ⟨"p", "1960-01-01", "M"⟩) [⟨"p", "2025-06-01"⟩]
    [⟨"p", "2020-01-01", "I10", none⟩] _ rfl rfl).1
    (fun k => by
      simp [bpValidDay, sysReadingsOn, diaReadingsOn,
        show parse_date "2020-01-01" = some ⟨2020, 1, 1⟩ from rfl])
